import Mathlib

/-!
Shallow embedding of the W210 police-deployment planning and optimization
service (src/application.py) and proofs about it.

Conventions of the embedding:
* Python dicts are modelled by `Dict`: an insertion-ordered key list plus a
  total value function.  `defaultdict(int)` reads of absent keys yield 0 and
  insert the key (`CommDeploys.getd` / `CommDeploys.touch`).  Reading an
  absent key of a plain dict raises `KeyError`, modelled with `Except`.
* Python numbers are exact: ints are `Int`, floats are `Rat`.  The source
  only adds, subtracts, multiplies and divides floats, except for one
  square root in the fairness statistic, modelled by `ratSqrt`, which agrees
  with the real square root on perfect squares (the only values at which a
  proof below evaluates it).
* `scipy.stats.t.cdf` is an external library function; the state-transition
  functions take it as a parameter `cdf`.  The concrete instantiations below
  use `cdfHalf`, which agrees with scipy at the points the proofs use
  (the CDF of any Student t distribution with positive df at 0 is 1/2).
* The Flask/requests transport layer is out of scope: handlers are modelled
  from the point where their arguments have been parsed, and database query
  results are passed in as lists of rows.
* Exceptions that escape a handler are modelled by `Res.raised e st`, where
  `st` is the global in-memory state at the moment the exception is thrown
  (the Python globals keep all mutations made before the raise).
-/

set_option linter.unusedVariables false

namespace CrimeOpt

/-- Kinds of Python exceptions the embedded code can raise. -/
inductive PyErr where
  | keyError
  | zeroDivision
  | typeError
  | attributeError
  deriving DecidableEq

/-- A Python dict: insertion-ordered key list plus a total value function.
Keys absent from `keys` map to the creation default of the dict; whether a
read of such a key raises or yields the default is decided at each use site
(`getE` vs direct `fn`). -/
structure Dict (α β : Type) where
  keys : List α
  fn : α → β

/-- The empty dict with creation default `d`. -/
def Dict.empty {α β : Type} (d : β) : Dict α β := ⟨[], fun _ => d⟩

/-- `m[k] = v`: insert or overwrite. -/
def Dict.set {α β : Type} [DecidableEq α] (m : Dict α β) (k : α) (v : β) : Dict α β :=
  ⟨if k ∈ m.keys then m.keys else m.keys ++ [k], Function.update m.fn k v⟩

/-- `m[k]` on a plain dict: `KeyError` when the key is absent. -/
def Dict.getE {α β : Type} [DecidableEq α] (m : Dict α β) (k : α) : Except PyErr β :=
  if k ∈ m.keys then .ok (m.fn k) else .error .keyError

/-- One community entry of the in-memory `communities` dict
(line 321: `{'id','code','name','ethnicity'}`; the `id` field always equals
the dict key, so the embedding uses the key directly). -/
structure CommInfo where
  name : String
  code : ℤ
  ethnicity : ℤ
  deriving DecidableEq

/-- One entry of the in-memory `policeDistricts` dict (lines 342 and 709). -/
structure DistrictInfo where
  name : String
  total_patrols : ℤ
  available_patrols : ℤ
  deployed_patrols : ℤ
  deriving DecidableEq

/-- One entry of the in-memory `crimecounts` dict, keyed by community code. -/
structure CrimeCount where
  absolute_count : ℚ
  weighted_count : ℚ
  deriving DecidableEq

/-- One per-community allocation row: the inner `defaultdict(int)` of
`deployments`.  The special `'total'` key of the Python dict is kept as the
separate field `total`; `keys` holds the district keys only. -/
structure CommDeploys where
  keys : List ℤ
  cell : ℤ → ℤ
  total : ℤ

/-- `deployments[c] = defaultdict(int); deployments[c]['total'] = 0`. -/
def CommDeploys.empty : CommDeploys := ⟨[], fun _ => 0, 0⟩

/-- A `defaultdict(int)` read: 0 when the key is absent. -/
def CommDeploys.getd (cd : CommDeploys) (d : ℤ) : ℤ :=
  if d ∈ cd.keys then cd.cell d else 0

/-- A `defaultdict(int)` read also inserts the default for an absent key. -/
def CommDeploys.touch (cd : CommDeploys) (d : ℤ) : CommDeploys :=
  if d ∈ cd.keys then cd else ⟨cd.keys ++ [d], Function.update cd.cell d 0, cd.total⟩

/-- `deployments[c][d] += p; deployments[c]['total'] += p`
(lines 348-349, 425-426, 497-498 with `p` negative, 718-719). -/
def CommDeploys.addCell (cd : CommDeploys) (d p : ℤ) : CommDeploys :=
  ⟨if d ∈ cd.keys then cd.keys else cd.keys ++ [d],
   Function.update cd.cell d (cd.getd d + p),
   cd.total + p⟩

/-- The service's entire in-memory model (the module-level globals). -/
structure St where
  loaded : Bool
  communities : Dict ℤ CommInfo
  policeDistricts : Dict ℤ DistrictInfo
  deployments : Dict ℤ CommDeploys
  distances : Dict (ℤ × ℤ) ℚ
  crimecounts : Dict ℤ CrimeCount
  mapCoverage : Dict ℤ ℚ
  mapCrimes : Dict ℤ ℚ
  mapDeploys : Dict ℤ ℤ
  totalCoverage : ℚ
  distanceCost : ℚ
  fairness : ℚ

/-- Outcome of a mutating handler call: a returned failure dict, a returned
success dict, or a propagated Python exception.  Each constructor carries
the in-memory state after the call. -/
inductive Res where
  | ok (st : St)
  | failed (st : St)
  | raised (e : PyErr) (st : St)

/-- The in-memory state after the call, whatever its outcome. -/
def Res.state : Res → St
  | .ok st => st
  | .failed st => st
  | .raised _ st => st

def Res.isOk : Res → Bool
  | .ok _ => true
  | _ => false

def Res.isFailed : Res → Bool
  | .failed _ => true
  | _ => false

def Res.isRaisedWith : Res → PyErr → Bool
  | .raised e _, e' => e = e'
  | _, _ => false

/-- Configuration constant: crimes one patrol can act on per shift (line 143). -/
def n_crimes_per_patrol : ℚ := 6

/-- The per-crime-type weight table (lines 156-179; every weight is 1). -/
def crimetype_weights : Dict String ℚ :=
  ⟨["THEFT", "SEXUAL ASSAULT", "NARCOTICS", "ASSAULT", "OTHER OFFENSE",
    "DECEPTIVE PRACTICE", "CRIMINAL TRESPASS", "WEAPONS VIOLATION",
    "PUBLIC INDECENCY", "OFFENSE INVOLVING CHILDREN", "PROSTITUTION",
    "INTERFERENCE WITH PUBLIC OFFICER", "HOMICIDE", "ARSON", "GAMBLING",
    "LIQUOR LAW VIOLATION", "KIDNAPPING", "STALKING", "NON - CRIMINAL",
    "HUMAN TRAFFICKING", "RITUALISM", "DOMESTIC VIOLENCE"],
   fun _ => 1⟩

/-- Floor square root by bounded search, structurally recursive so that
concrete evaluation reduces inside the kernel. -/
def isqrtGo (n : ℕ) : ℕ → ℕ → ℕ
  | 0, acc => acc
  | fuel + 1, acc => if (acc + 1) * (acc + 1) ≤ n then isqrtGo n fuel (acc + 1) else acc

/-- Floor square root of a natural number. -/
def isqrt (n : ℕ) : ℕ := isqrtGo n n 0

/-- Exact model of Python `x ** 0.5` for the values this development
evaluates it at: on a nonnegative perfect-square rational it is the exact
square root (as is IEEE `sqrt`); elsewhere its value is never relied on. -/
def ratSqrt (q : ℚ) : ℚ :=
  (isqrt q.num.toNat : ℚ) / (isqrt q.den : ℚ)

/-- Does a community fall in the `comm_count[1]` bucket of
`calculateFairnessTStat` (ethnicity 0 or 1, lines 188 and 206)? -/
def bucket1 (ci : CommInfo) : Prop := ci.ethnicity = 0 ∨ ci.ethnicity = 1

instance (ci : CommInfo) : Decidable (bucket1 ci) :=
  inferInstanceAs (Decidable (ci.ethnicity = 0 ∨ ci.ethnicity = 1))

/-- First loop of `calculateFairnessTStat` (lines 184-193): community and
deployment counts per bucket, as `(comm_count[0], comm_count[1],
deploy_count[0], deploy_count[1])`.  `communities[comm]` raises `KeyError`
for a plan key with no community entry. -/
def fairnessCounts (communities : Dict ℤ CommInfo) (plan : Dict ℤ CommDeploys) :
    Except PyErr (ℤ × ℤ × ℤ × ℤ) :=
  plan.keys.foldlM (fun a c => do
    let ci ← communities.getE c
    let tot := (plan.fn c).total
    if bucket1 ci then
      pure (a.1, a.2.1 + 1, a.2.2.1, a.2.2.2 + tot)
    else
      pure (a.1 + 1, a.2.1, a.2.2.1 + tot, a.2.2.2))
    ((0 : ℤ), (0 : ℤ), (0 : ℤ), (0 : ℤ))

/-- Second loop of `calculateFairnessTStat` (lines 203-209): per-bucket sums
of squared deviations from the bucket mean, `(variances[0], variances[1])`
before the `n-1` normalization. -/
def fairnessVarSums (communities : Dict ℤ CommInfo) (plan : Dict ℤ CommDeploys)
    (m0 m1 : ℚ) : Except PyErr (ℚ × ℚ) :=
  plan.keys.foldlM (fun a c => do
    let ci ← communities.getE c
    let tot := (plan.fn c).total
    if bucket1 ci then
      pure (a.1, a.2 + ((tot : ℚ) - m1) ^ 2)
    else
      pure (a.1 + ((tot : ℚ) - m0) ^ 2, a.2))
    ((0 : ℚ), (0 : ℚ))

/-- `calculateFairnessTStat(communities, deploymentPlan)` (lines 183-217)
with the default `cpxMode=False` used at every call site.  Returns the
t statistic and the degrees of freedom, or the Python exception raised.
Each Python division is preceded by the explicit zero test it performs. -/
def calculateFairnessTStat (communities : Dict ℤ CommInfo)
    (plan : Dict ℤ CommDeploys) : Except PyErr (ℚ × ℤ) := do
  let (cc0, cc1, dc0, dc1) ← fairnessCounts communities plan
  let df := cc0 + cc1 - 2
  if dc0 = 0 ∧ dc1 = 0 then
    pure (0, df)
  else do
    if cc0 = 0 then throw .zeroDivision
    let m0 : ℚ := (dc0 : ℚ) / (cc0 : ℚ)
    if cc1 = 0 then throw .zeroDivision
    let m1 : ℚ := (dc1 : ℚ) / (cc1 : ℚ)
    let (vs0, vs1) ← fairnessVarSums communities plan m0 m1
    if cc0 - 1 = 0 then throw .zeroDivision
    let v0 : ℚ := vs0 / ((cc0 : ℚ) - 1)
    if cc1 - 1 = 0 then throw .zeroDivision
    let v1 : ℚ := vs1 / ((cc1 : ℚ) - 1)
    if (df : ℚ) = 0 then throw .zeroDivision
    let sigma := ratSqrt ((((cc0 : ℚ) - 1) * v0 ^ 2 + ((cc1 : ℚ) - 1) * v1 ^ 2) / (df : ℚ))
    let s := ratSqrt (1 / (cc0 : ℚ) + 1 / (cc1 : ℚ))
    if sigma * s = 0 then throw .zeroDivision
    pure ((m0 - m1) / (sigma * s), df)

/-- Conversion of the t statistic to the fairness KPI (lines 372-374,
451-453, 523-525, 742-744): `(1 - t.cdf(abs(t_stat), df)) * 2 * 100`,
with scipy's CDF passed in as `cdf`. -/
def fairnessFromT (cdf : ℚ → ℤ → ℚ) (t_stat : ℚ) (df : ℤ) : ℚ :=
  (1 - cdf |t_stat| df) * 2 * 100

/-- The total-coverage accumulation loop shared by load, deploy and
undeploy (lines 361-365, 440-444, 512-516): `(totalcrimes, totaldeploys)`.
Reads `communities[comm]` and `crimecounts[code]`, which can raise. -/
def computeTotals (deps : Dict ℤ CommDeploys) (communities : Dict ℤ CommInfo)
    (crimecounts : Dict ℤ CrimeCount) : Except PyErr (ℚ × ℤ) :=
  deps.keys.foldlM (fun a c => do
    let ci ← communities.getE c
    let cc ← crimecounts.getE ci.code
    pure (a.1 + cc.weighted_count, a.2 + (deps.fn c).total))
    ((0 : ℚ), (0 : ℤ))

/-- `totalCoverage = ((totaldeploys*n_crimes_per_patrol)/totalcrimes)*100`
(lines 366, 445, 517): the division has no zero guard in the source, so a
zero total weighted demand raises `ZeroDivisionError`. -/
def computeTotalCoverage (deps : Dict ℤ CommDeploys) (communities : Dict ℤ CommInfo)
    (crimecounts : Dict ℤ CrimeCount) : Except PyErr ℚ := do
  let (totalcrimes, totaldeploys) ← computeTotals deps communities crimecounts
  if totalcrimes = 0 then throw .zeroDivision
  pure ((totaldeploys : ℚ) * n_crimes_per_patrol / totalcrimes * 100)

/-- The guarded per-community coverage value (lines 352-356, 431-435,
503-507, 722-726): 0 when the weighted demand is 0. -/
def commCoverage (tot : ℤ) (weighted : ℚ) : ℚ :=
  if weighted ≠ 0 then (tot : ℚ) * n_crimes_per_patrol / weighted * 100 else 0

/-- `deployments[community][district] += p; deployments[community]['total'] += p`
lifted to the state (lines 425-426 and, with `p` negative, 497-498). -/
def allocAdd (st : St) (community district p : ℤ) : St :=
  { st with deployments :=
      st.deployments.set community ((st.deployments.fn community).addCell district p) }

/-- `policeDistricts[district]['available_patrols'] -= p;
policeDistricts[district]['deployed_patrols'] += p` (lines 427-428 and,
with `p` negative, 499-500). -/
def adjustDistrict (st : St) (district p : ℤ) : St :=
  let di := st.policeDistricts.fn district
  let di' := { di with available_patrols := di.available_patrols - p,
                       deployed_patrols := di.deployed_patrols + p }
  { st with policeDistricts := st.policeDistricts.set district di' }

/-- The per-community map refresh after an edit (lines 431-436, 503-508):
recompute the touched community's coverage and map-deploy value from its
current total. -/
def setMaps (st : St) (community : ℤ) : St :=
  { st with
    mapCoverage := st.mapCoverage.set (st.communities.fn community).code
      (commCoverage (st.deployments.fn community).total
        (st.crimecounts.fn (st.communities.fn community).code).weighted_count),
    mapDeploys := st.mapDeploys.set (st.communities.fn community).code
      (st.deployments.fn community).total }

/-- `distanceCost += p * distances[(district, community)]` (line 437 and,
with `p` negative, line 509). -/
def addDistanceCost (st : St) (district community p : ℤ) : St :=
  { st with distanceCost := st.distanceCost + (p : ℚ) * st.distances.fn (district, community) }

/-- The `deployPatrols` handler (lines 385-458), from the point where the
`district`, `community` and `patrols` arguments have been parsed to ints.
The only argument check is the capacity guard of line 421; on its failure
the state is returned unchanged.  All mutations of lines 425-437 precede
the total-coverage and fairness recomputations (lines 439-453), either of
which can raise, leaving the earlier mutations in place. -/
def deployPatrols (cdf : ℚ → ℤ → ℚ) (st : St) (district community patrols : ℤ) : Res :=
  if !st.loaded then .failed st else
  match st.policeDistricts.getE district with
  | .error e => .raised e st
  | .ok di =>
    if di.available_patrols < patrols then .failed st else
    match st.deployments.getE community with
    | .error e => .raised e st
    | .ok _ =>
      let st1 := adjustDistrict (allocAdd st community district patrols) district patrols
      match st1.communities.getE community with
      | .error e => .raised e st1
      | .ok ci =>
        match st1.crimecounts.getE ci.code with
        | .error e => .raised e st1
        | .ok _ =>
          let st2 := setMaps st1 community
          match st2.distances.getE (district, community) with
          | .error e => .raised e st2
          | .ok _ =>
            let st3 := addDistanceCost st2 district community patrols
            match computeTotalCoverage st3.deployments st3.communities st3.crimecounts with
            | .error e => .raised e st3
            | .ok tcov =>
              let st4 := { st3 with totalCoverage := tcov }
              match calculateFairnessTStat st4.communities st4.deployments with
              | .error e => .raised e st4
              | .ok tdf =>
                .ok { st4 with fairness := fairnessFromT cdf tdf.1 tdf.2 }

/-- The `undeployPatrols` handler (lines 460-530).  The guard of line 494
reads `deployments[community][district]` on the inner `defaultdict`, which
inserts the district key with value 0 when absent even on the failure
path.  The capacity-style guard compares the cell to `patrols`; the
reverse mutations mirror `deployPatrols`. -/
def undeployPatrols (cdf : ℚ → ℤ → ℚ) (st : St) (district community patrols : ℤ) : Res :=
  if !st.loaded then .failed st else
  match st.deployments.getE community with
  | .error e => .raised e st
  | .ok cd0 =>
    let st0 := { st with deployments := st.deployments.set community (cd0.touch district) }
    if cd0.getd district < patrols then .failed st0 else
    let st1 := allocAdd st0 community district (-patrols)
    match st1.policeDistricts.getE district with
    | .error e => .raised e st1
    | .ok _ =>
      let st2 := adjustDistrict st1 district (-patrols)
      match st2.communities.getE community with
      | .error e => .raised e st2
      | .ok ci =>
        match st2.crimecounts.getE ci.code with
        | .error e => .raised e st2
        | .ok _ =>
          let st3 := setMaps st2 community
          match st3.distances.getE (district, community) with
          | .error e => .raised e st3
          | .ok _ =>
            let st4 := addDistanceCost st3 district community (-patrols)
            match computeTotalCoverage st4.deployments st4.communities st4.crimecounts with
            | .error e => .raised e st4
            | .ok tcov =>
              let st5 := { st4 with totalCoverage := tcov }
              match calculateFairnessTStat st5.communities st5.deployments with
              | .error e => .raised e st5
              | .ok tdf =>
                .ok { st5 with fairness := fairnessFromT cdf tdf.1 tdf.2 }

/-- A row of the `community` table. -/
structure CommunityRow where
  id : ℤ
  code : ℤ
  name : String
  ethnicity : ℤ

/-- A row of the `policedistrict` table. -/
structure DistrictRow where
  id : ℤ
  name : String
  patrols : ℤ

/-- A row of the `distances` table. -/
structure DistanceRow where
  district : ℤ
  community : ℤ
  distance : ℚ

/-- One crime prediction returned by the machine-learning service. -/
structure PredRow where
  communityArea : Option ℤ
  primaryType : Option String
  pred : ℚ

/-- A `patroldeployment` row for the requested date and period. -/
structure DeployRow where
  community : ℤ
  district : ℤ
  patrols : ℤ

/-- Accumulator of the historical-deployments loop of
`loadDeploymentPlan` (lines 345-358). -/
structure HistAcc where
  deployments : Dict ℤ CommDeploys
  policeDistricts : Dict ℤ DistrictInfo
  mapCoverage : Dict ℤ ℚ
  mapDeploys : Dict ℤ ℤ
  distanceCost : ℚ

/-- The crime-predictions loop of `loadDeploymentPlan` (lines 334-338):
skip predictions with a null community area, null crime type, or the
sentinel area `'0'`; otherwise accumulate absolute and weighted counts
(raising `KeyError` on an unknown crime type or community area) and
refresh `mapCrimes`. -/
def predsLoop (communities : Dict ℤ CommInfo) (crimepreds : List PredRow)
    (crimecounts0 : Dict ℤ CrimeCount) (mapCrimes0 : Dict ℤ ℚ) :
    Except PyErr (Dict ℤ CrimeCount × Dict ℤ ℚ) :=
  crimepreds.foldlM (fun a pr =>
    match pr.communityArea, pr.primaryType with
    | some area, some ptype =>
      if area = 0 then pure a else do
        let cc ← a.1.getE area
        let ccs1 := a.1.set area { cc with absolute_count := cc.absolute_count + pr.pred }
        let w ← crimetype_weights.getE ptype
        let cc1 := ccs1.fn area
        let ccs2 := ccs1.set area { cc1 with weighted_count := cc1.weighted_count + pr.pred * w }
        let ci ← communities.getE area
        let cc2 ← ccs2.getE ci.code
        pure (ccs2, a.2.set ci.code cc2.absolute_count)
    | _, _ => pure a) (crimecounts0, mapCrimes0)

/-- One step of the historical-deployments loop of `loadDeploymentPlan`
(lines 345-358): apply the record to the allocation matrix and district
counters, refresh the touched community's map values, and add to the
running distance cost. -/
def histStep (communities : Dict ℤ CommInfo) (crimecounts : Dict ℤ CrimeCount)
    (distances : Dict (ℤ × ℤ) ℚ) (a : HistAcc) (r : DeployRow) : Except PyErr HistAcc := do
  let cd ← a.deployments.getE r.community
  let deps := a.deployments.set r.community (cd.addCell r.district r.patrols)
  let di ← a.policeDistricts.getE r.district
  let di' := { di with available_patrols := di.available_patrols - r.patrols,
                       deployed_patrols := di.deployed_patrols + r.patrols }
  let dists := a.policeDistricts.set r.district di'
  let ci ← communities.getE r.community
  let cc ← crimecounts.getE ci.code
  let tot := (deps.fn r.community).total
  let mc := a.mapCoverage.set ci.code (commCoverage tot cc.weighted_count)
  let md := a.mapDeploys.set ci.code tot
  let dlt ← distances.getE (r.district, r.community)
  pure ⟨deps, dists, mc, md, a.distanceCost + (r.patrols : ℚ) * dlt⟩

/-- The `communities` dict built at lines 320-321, keyed by community id. -/
def loadCommunities (dbCommunities : List CommunityRow) : Dict ℤ CommInfo :=
  dbCommunities.foldl (fun m r => m.set r.id ⟨r.name, r.code, r.ethnicity⟩)
    (Dict.empty ⟨"", 0, 0⟩)

/-- The zero-filled allocation matrix of lines 322-323. -/
def loadDeployments0 (dbCommunities : List CommunityRow) : Dict ℤ CommDeploys :=
  dbCommunities.foldl (fun m r => m.set r.id CommDeploys.empty) (Dict.empty CommDeploys.empty)

/-- The zero-filled `crimecounts` dict of line 324, keyed by code. -/
def loadCrimecounts0 (dbCommunities : List CommunityRow) : Dict ℤ CrimeCount :=
  dbCommunities.foldl (fun m r => m.set r.code ⟨0, 0⟩) (Dict.empty ⟨0, 0⟩)

/-- A zero-filled per-code rational map (lines 325-326). -/
def loadCodeMapQ (dbCommunities : List CommunityRow) : Dict ℤ ℚ :=
  dbCommunities.foldl (fun m r => m.set r.code (0 : ℚ)) (Dict.empty 0)

/-- The zero-filled `mapDeploys` dict of line 327. -/
def loadMapDeploys0 (dbCommunities : List CommunityRow) : Dict ℤ ℤ :=
  dbCommunities.foldl (fun m r => m.set r.code (0 : ℤ)) (Dict.empty 0)

/-- The distance dict of lines 330-331. -/
def loadDistances (dbDistances : List DistanceRow) : Dict (ℤ × ℤ) ℚ :=
  dbDistances.foldl (fun m r => m.set (r.district, r.community) r.distance) (Dict.empty 0)

/-- The district dict of lines 341-342: `available = total, deployed = 0`. -/
def loadDistricts0 (dbDistricts : List DistrictRow) : Dict ℤ DistrictInfo :=
  dbDistricts.foldl (fun m r => m.set r.id ⟨r.name, r.patrols, r.patrols, 0⟩)
    (Dict.empty ⟨"", 0, 0, 0⟩)

/-- The in-memory part of the `loadDeploymentPlan` handler (lines 302-382),
given the database query results and crime predictions.  The earlier steps
(argument parsing, the prediction request) return failures without touching
the in-memory model and are out of scope.  Any raise aborts the load
before `loaded` is set. -/
def loadDeploymentPlan (cdf : ℚ → ℤ → ℚ) (dbCommunities : List CommunityRow)
    (dbDistances : List DistanceRow) (crimepreds : List PredRow)
    (dbDistricts : List DistrictRow) (dbDeployments : List DeployRow) :
    Except PyErr St := do
  let communities := loadCommunities dbCommunities
  let distances := loadDistances dbDistances
  let (crimecounts, mapCrimes) ←
    predsLoop communities crimepreds (loadCrimecounts0 dbCommunities)
      (loadCodeMapQ dbCommunities)
  let acc ← dbDeployments.foldlM (histStep communities crimecounts distances)
    ⟨loadDeployments0 dbCommunities, loadDistricts0 dbDistricts,
     loadCodeMapQ dbCommunities, loadMapDeploys0 dbCommunities, 0⟩
  let tcov ← computeTotalCoverage acc.deployments communities crimecounts
  let tdf ← calculateFairnessTStat communities acc.deployments
  pure ⟨true, communities, acc.policeDistricts, acc.deployments, distances, crimecounts,
        acc.mapCoverage, mapCrimes, acc.mapDeploys, tcov, acc.distanceCost,
        fairnessFromT cdf tdf.1 tdf.2⟩

/-- The model-building phase of `runOptimization` (lines 590-686).  It
constructs the solver model without changing the in-memory session, but
raises (leaving the state intact) when a `crimecounts` read misses
(line 634), when no community has nonzero weighted demand (`len(coverages)`
is 0, line 646), when the numeric total of the included weighted demands is
0 (the division of line 648), or when an ethnicity bucket is empty (the
divisions of line 650, executed regardless of `useFairness`). -/
def buildPhase (st : St) : Except PyErr Unit := do
  let e1 : ℤ := (st.communities.keys.countP (fun c => decide (bucket1 (st.communities.fn c))) : ℤ)
  let e0 : ℤ := (st.communities.keys.countP (fun c => !decide (bucket1 (st.communities.fn c))) : ℤ)
  let ws ← st.communities.keys.foldlM (fun (acc : List ℚ) c => do
      let cc ← st.crimecounts.getE (st.communities.fn c).code
      pure (if cc.weighted_count ≠ 0 then acc ++ [cc.weighted_count] else acc)) ([] : List ℚ)
  if ws.length = 0 then throw .zeroDivision
  if ws.sum = 0 then throw .zeroDivision
  if e0 = 0 ∨ e1 = 0 then throw .zeroDivision
  pure ()

/-- The district re-population of lines 708-709: every queried district row
is written over the existing `policeDistricts` dict (which is not cleared
first) with `available = total, deployed = 0`. -/
def resetDistrictsFold (dbDistricts : List DistrictRow) (m : Dict ℤ DistrictInfo) :
    Dict ℤ DistrictInfo :=
  dbDistricts.foldl (fun m r => m.set r.id ⟨r.name, r.patrols, r.patrols, 0⟩) m

/-- Lines 701-709 of `runOptimization`: the in-memory plan and its KPIs are
reset before the solver result is examined (`mapCrimes` is not reset). -/
def resetPlan (st : St) (dbDistricts : List DistrictRow) : St :=
  { st with deployments := Dict.empty CommDeploys.empty,
            mapCoverage := Dict.empty 0,
            mapDeploys := Dict.empty 0,
            totalCoverage := 0, distanceCost := 0, fairness := 0,
            policeDistricts := resetDistrictsFold dbDistricts st.policeDistricts }

/-- Tag an exception with the in-memory state at the moment it is raised. -/
def liftSt {β : Type} (st : St) : Except PyErr β → Except (PyErr × St) β
  | .ok b => .ok b
  | .error e => .error (e, st)

/-- One inner step of the solution-ingestion loop (lines 716-728): read one
solution variable (`msol['c..d..']`, which raises `TypeError` when the
solve failed and `msol` is `None`), apply it to the matrix and counters,
refresh the community's map values, and add to the distance cost. -/
def ingestStep (readVar : ℤ → ℤ → Except PyErr ℤ) (c : ℤ) (s : St) (d : ℤ) :
    Except (PyErr × St) St := do
  let n ← liftSt s (readVar c d)
  let s1 := adjustDistrict (allocAdd s c d n) d n
  let _ ← liftSt s1 (s1.crimecounts.getE (s1.communities.fn c).code)
  let s2 := setMaps s1 c
  let _ ← liftSt s2 (s2.distances.getE (d, c))
  pure (addDistanceCost s2 d c n)

/-- Lines 711-728 for one community: create its fresh allocation row, then
ingest one variable per police district. -/
def ingestComm (readVar : ℤ → ℤ → Except PyErr ℤ) (s : St) (c : ℤ) :
    Except (PyErr × St) St :=
  let s0 := { s with deployments := s.deployments.set c CommDeploys.empty }
  s0.policeDistricts.keys.foldlM (ingestStep readVar c) s0

/-- The whole solution-ingestion loop (lines 711-728). -/
def ingestLoop (readVar : ℤ → ℤ → Except PyErr ℤ) (st : St) : Except (PyErr × St) St :=
  st.communities.keys.foldlM (ingestComm readVar) st

/-- One step of the total-coverage loop of `runOptimization`
(lines 731-736).  Unlike the load and edit paths, the division sits inside
the loop body, so it is attempted after every prefix of communities. -/
def covLoopOptStep (s : ℚ × ℤ × St) (c : ℤ) : Except (PyErr × St) (ℚ × ℤ × St) := do
  let st := s.2.2
  let ci ← liftSt st (st.communities.getE c)
  let cc ← liftSt st (st.crimecounts.getE ci.code)
  let tc := s.1 + cc.weighted_count
  let td := s.2.1 + (st.deployments.fn c).total
  if tc = 0 then throw (.zeroDivision, st)
  pure (tc, td, { st with totalCoverage := (td : ℚ) * n_crimes_per_patrol / tc * 100 })

/-- The total-coverage loop of `runOptimization` (lines 731-736). -/
def covLoopOpt (st : St) : Except (PyErr × St) St := do
  let r ← st.deployments.keys.foldlM covLoopOptStep (0, 0, st)
  pure r.2.2

/-- The `runOptimization` handler (lines 560-750) with the external solver
abstracted: `msol` is the solver result, `none` when the solve failed or
was infeasible (docplex returns `None` then).  The in-memory plan is reset
(lines 701-709) before any solution value is read; with `msol = None` the
first variable read raises `TypeError` (or, when every read is skipped,
line 749 raises an `AttributeError` reading `msol.solve_details`), leaving
the reset state behind.  `useFairness` only alters the solver objective,
which lives behind `msol`. -/
def runOptimization (cdf : ℚ → ℤ → ℚ) (st : St) (dbDistricts : List DistrictRow)
    (useFairness : Bool) (msol : Option (ℤ → ℤ → ℤ)) : Res :=
  if !st.loaded then .failed st else
  match buildPhase st with
  | .error e => .raised e st
  | .ok _ =>
    let st1 := resetPlan st dbDistricts
    let readVar : ℤ → ℤ → Except PyErr ℤ :=
      match msol with
      | none => fun _ _ => .error .typeError
      | some sol => fun c d => .ok (sol c d)
    match ingestLoop readVar st1 with
    | .error es => .raised es.1 es.2
    | .ok s2 =>
      match covLoopOpt s2 with
      | .error es => .raised es.1 es.2
      | .ok s3 =>
        match calculateFairnessTStat s3.communities s3.deployments with
        | .error e => .raised e s3
        | .ok tdf =>
          let s4 := { s3 with fairness := fairnessFromT cdf tdf.1 tdf.2 }
          match msol with
          | none => .raised .attributeError s4
          | some _ => .ok s4

/-- One `PatrolDeployment` row written by `saveDeploymentPlan`. -/
structure SavedRecord where
  date : String
  period : String
  community : ℤ
  district : ℤ
  patrols : ℤ
  deriving DecidableEq

/-- The insert batch of `saveDeploymentPlan` (lines 549-553): one row per
district key of each community's allocation row — the `'total'` entry of
the Python dict is skipped by the `pd != 'total'` test, which corresponds
to iterating the `keys` field of `CommDeploys`.  Zero-valued cells are
emitted like any other. -/
def savedRecords (date period : String) (st : St) : List SavedRecord :=
  st.deployments.keys.flatMap (fun c =>
    (st.deployments.fn c).keys.map (fun d =>
      ⟨date, period, c, d, (st.deployments.fn c).cell d⟩))

/-- The `saveDeploymentPlan` handler (lines 533-557): `none` models the
no-plan-loaded failure, otherwise the rows for the session date and period
are replaced by the returned batch. -/
def saveDeploymentPlan (date period : String) (st : St) : Option (List SavedRecord) :=
  if st.loaded then some (savedRecords date period st) else none

/-- Sum of the allocation cells of district `d` over all communities
(an absent cell counts as 0), the referent of the claimed counter
invariant. -/
def sumAllocD (deps : Dict ℤ CommDeploys) (d : ℤ) : ℤ :=
  (deps.keys.map (fun c => (deps.fn c).getd d)).sum

/-- The claimed district-counter invariant: for every district,
`available + deployed = total` and `deployed` is the column sum of the
allocation matrix.  The key list of the matrix is duplicate-free (every
constructor of the matrix builds it through `Dict.set`). -/
def InvSt (st : St) : Prop :=
  st.deployments.keys.Nodup ∧
  ∀ d ∈ st.policeDistricts.keys,
    (st.policeDistricts.fn d).available_patrols + (st.policeDistricts.fn d).deployed_patrols
      = (st.policeDistricts.fn d).total_patrols ∧
    (st.policeDistricts.fn d).deployed_patrols = sumAllocD st.deployments d

/-- The distance cost recomputed from scratch, as the spec states it: the
sum over all cells of the allocation matrix of `allocation(c,d) *
distance(d,c)` (cells holding 0 contribute 0, so summing all stored cells
equals summing the nonzero ones). -/
def scratchDistanceCost (st : St) : ℚ :=
  (st.deployments.keys.map (fun c =>
    ((st.deployments.fn c).keys.map (fun d =>
      ((st.deployments.fn c).cell d : ℚ) * st.distances.fn (d, c))).sum)).sum

/-- Duplicate-freedom of the matrix key lists, needed to relate cell
updates to the sums above; it holds for every state the service builds,
since every key list is grown through `Dict.set`. -/
def WFdeps (st : St) : Prop :=
  st.deployments.keys.Nodup ∧ ∀ c ∈ st.deployments.keys, (st.deployments.fn c).keys.Nodup

/-- A point edit of the allocation matrix. -/
inductive Edit where
  | assign (district community patrols : ℤ)
  | unassign (district community patrols : ℤ)

/-- Apply one edit through the corresponding handler. -/
def applyEdit (cdf : ℚ → ℤ → ℚ) (st : St) : Edit → Res
  | .assign d c p => deployPatrols cdf st d c p
  | .unassign d c p => undeployPatrols cdf st d c p

/-- Apply a sequence of edits, `none` unless every edit fully succeeds. -/
def applyEdits (cdf : ℚ → ℤ → ℚ) (st : St) : List Edit → Option St
  | [] => some st
  | e :: es =>
    match applyEdit cdf st e with
    | .ok st' => applyEdits cdf st' es
    | _ => none

/-- The raised exception of a fallible computation, if any: a decidable
observation usable on results whose success type contains functions. -/
def errOf {β : Type} : Except PyErr β → Option PyErr
  | .error e => some e
  | .ok _ => none

/-- The model CDF used to instantiate theorems at concrete inputs: it
agrees with `scipy.stats.t.cdf` at every point those instantiations
evaluate it (the Student t CDF at 0 with positive df is exactly 1/2). -/
def cdfHalf : ℚ → ℤ → ℚ := fun _ _ => 1 / 2

section ControlLemmas

variable {ε α β : Type}

@[simp] theorem bindOk (a : α) (f : α → Except ε β) :
    (Except.ok a >>= f : Except ε β) = f a := rfl

@[simp] theorem bindErr (e : ε) (f : α → Except ε β) :
    (Except.error e >>= f : Except ε β) = Except.error e := rfl

@[simp] theorem mapOk (a : α) (f : α → β) :
    (f <$> Except.ok a : Except ε β) = Except.ok (f a) := rfl

@[simp] theorem mapErr (e : ε) (f : α → β) :
    (f <$> (Except.error e : Except ε α) : Except ε β) = Except.error e := rfl

@[simp] theorem pureOk (a : α) : (pure a : Except ε α) = Except.ok a := rfl

@[simp] theorem throwErr (e : ε) : (throw e : Except ε α) = Except.error e := rfl

@[simp] theorem liftStOk (st : St) (a : α) : liftSt st (Except.ok a) = Except.ok a := rfl

@[simp] theorem liftStErr (st : St) (e : PyErr) :
    liftSt st (Except.error e : Except PyErr α) = Except.error (e, st) := rfl

end ControlLemmas

section DictLemmas

variable {α β : Type} [DecidableEq α]

theorem Dict.getE_ok_iff {m : Dict α β} {k : α} {v : β} :
    m.getE k = .ok v ↔ k ∈ m.keys ∧ m.fn k = v := by
  unfold Dict.getE
  split
  · simp_all [eq_comm]
  · simp_all

theorem Dict.getE_ok_of_mem {m : Dict α β} {k : α} (h : k ∈ m.keys) :
    m.getE k = .ok (m.fn k) := by
  simp [Dict.getE, h]

theorem Dict.set_fn_same (m : Dict α β) (k : α) (v : β) : (m.set k v).fn k = v := by
  simp [Dict.set]

theorem Dict.set_fn_ne (m : Dict α β) {k k' : α} (v : β) (h : k' ≠ k) :
    (m.set k v).fn k' = m.fn k' := by
  simp [Dict.set, Function.update, h]

theorem Dict.mem_set_keys {m : Dict α β} {k k' : α} {v : β} :
    k' ∈ (m.set k v).keys ↔ k' ∈ m.keys ∨ k' = k := by
  by_cases h : k ∈ m.keys
  · simp only [Dict.set, if_pos h]
    constructor
    · exact Or.inl
    · rintro (hk | rfl) <;> [exact hk; exact h]
  · simp [Dict.set, if_neg h]

theorem Dict.set_keys_of_mem {m : Dict α β} {k : α} (v : β) (h : k ∈ m.keys) :
    (m.set k v).keys = m.keys := by
  simp [Dict.set, h]

theorem Dict.set_nodup {m : Dict α β} {k : α} {v : β} (h : m.keys.Nodup) :
    (m.set k v).keys.Nodup := by
  unfold Dict.set
  split
  · exact h
  · next hk => simpa [List.nodup_append] using ⟨h, fun hmem => hk hmem⟩

end DictLemmas

section CommDeploysLemmas

theorem CommDeploys.getd_addCell_same (cd : CommDeploys) (d p : ℤ) :
    (cd.addCell d p).getd d = cd.getd d + p := by
  unfold CommDeploys.addCell CommDeploys.getd
  by_cases h : d ∈ cd.keys <;> simp [h]

theorem CommDeploys.getd_addCell_ne (cd : CommDeploys) {d d' : ℤ} (p : ℤ) (h : d' ≠ d) :
    (cd.addCell d p).getd d' = cd.getd d' := by
  unfold CommDeploys.addCell CommDeploys.getd
  by_cases hk : d ∈ cd.keys <;>
    simp [hk, Function.update, h, List.mem_append]

theorem CommDeploys.addCell_total (cd : CommDeploys) (d p : ℤ) :
    (cd.addCell d p).total = cd.total + p := rfl

theorem CommDeploys.mem_addCell_keys {cd : CommDeploys} {d d' : ℤ} {p : ℤ} :
    d' ∈ (cd.addCell d p).keys ↔ d' ∈ cd.keys ∨ d' = d := by
  unfold CommDeploys.addCell
  by_cases h : d ∈ cd.keys
  · simp only [if_pos h]
    constructor
    · exact Or.inl
    · rintro (hk | rfl) <;> [exact hk; exact h]
  · simp [if_neg h]

theorem CommDeploys.addCell_keys_nodup {cd : CommDeploys} {d p : ℤ} (h : cd.keys.Nodup) :
    (cd.addCell d p).keys.Nodup := by
  unfold CommDeploys.addCell
  split
  · exact h
  · next hk => simpa [List.nodup_append] using ⟨h, fun hmem => hk hmem⟩

theorem CommDeploys.getd_touch (cd : CommDeploys) (d d' : ℤ) :
    (cd.touch d).getd d' = cd.getd d' := by
  unfold CommDeploys.touch CommDeploys.getd
  by_cases h : d ∈ cd.keys
  · simp [h]
  · by_cases h' : d' = d
    · subst h'; simp [h, Function.update]
    · simp [h, Function.update, h', List.mem_append]

theorem CommDeploys.touch_total (cd : CommDeploys) (d : ℤ) :
    (cd.touch d).total = cd.total := by
  unfold CommDeploys.touch
  split <;> rfl

theorem CommDeploys.mem_touch_keys {cd : CommDeploys} {d d' : ℤ} :
    d' ∈ (cd.touch d).keys ↔ d' ∈ cd.keys ∨ d' = d := by
  unfold CommDeploys.touch
  by_cases h : d ∈ cd.keys
  · simp only [if_pos h]
    constructor
    · exact Or.inl
    · rintro (hk | rfl) <;> [exact hk; exact h]
  · simp [if_neg h]

theorem CommDeploys.touch_keys_nodup {cd : CommDeploys} {d : ℤ} (h : cd.keys.Nodup) :
    (cd.touch d).keys.Nodup := by
  unfold CommDeploys.touch
  split
  · exact h
  · next hk => simpa [List.nodup_append] using ⟨h, fun hmem => hk hmem⟩

theorem CommDeploys.getd_empty (d : ℤ) : CommDeploys.empty.getd d = 0 := rfl

end CommDeploysLemmas

section ListSumLemmas

variable {M : Type} [AddCommGroup M]

/-- Changing a function at one point of a duplicate-free list shifts the
mapped sum by the difference at that point. -/
theorem sum_map_update_of_nodup (l : List ℤ) (hl : l.Nodup) {c : ℤ} (hc : c ∈ l)
    (f g : ℤ → M) (hg : ∀ x ∈ l, x ≠ c → g x = f x) :
    (l.map g).sum = (l.map f).sum + (g c - f c) := by
  induction l with
  | nil => cases hc
  | cons a l ih =>
    rcases List.nodup_cons.mp hl with ⟨ha, hl'⟩
    rcases List.mem_cons.mp hc with rfl | hc'
    · have : ∀ x ∈ l, g x = f x := fun x hx => hg x (List.mem_cons_of_mem _ hx)
        (fun hxa => ha (hxa ▸ hx))
      have hmap : l.map g = l.map f := List.map_congr_left this
      simp only [List.map_cons, List.sum_cons, hmap]
      abel
    · have hne : a ≠ c := fun h => ha (h ▸ hc')
      have ha' : g a = f a := hg a (List.mem_cons_self a l) hne
      have := ih hl' hc' (fun x hx hxc => hg x (List.mem_cons_of_mem _ hx) hxc)
      simp only [List.map_cons, List.sum_cons, ha', this]
      abel

/-- A pointwise-equal function gives the same mapped sum. -/
theorem sum_map_congr (l : List ℤ) (f g : ℤ → M) (h : ∀ x ∈ l, g x = f x) :
    (l.map g).sum = (l.map f).sum := by
  rw [List.map_congr_left h]

end ListSumLemmas

section FoldLemmas

variable {σ α : Type}

/-- An invariant preserved by every successful step of a `foldlM` over
`Except` survives the whole fold. -/
theorem foldlM_ok_invariant {ε : Type} (P : σ → Prop) (f : σ → α → Except ε σ)
    (l : List α) (s s' : σ)
    (hstep : ∀ t a t', a ∈ l → P t → f t a = .ok t' → P t')
    (hs : P s) (h : l.foldlM f s = .ok s') : P s' := by
  induction l generalizing s with
  | nil =>
    simp only [List.foldlM, pureOk, Except.ok.injEq] at h
    exact h ▸ hs
  | cons a l ih =>
    simp only [List.foldlM] at h
    cases hf : f s a with
    | error e => rw [hf] at h; simp at h
    | ok t =>
      rw [hf] at h
      simp only [bindOk] at h
      exact ih t (fun u b u' hb => hstep u b u' (List.mem_cons_of_mem _ hb))
        (hstep s a t (List.mem_cons_self a l) hs hf) h

/-- An invariant preserved by every step of a plain `foldl`. -/
theorem foldl_invariant (P : σ → Prop) (f : σ → α → σ) (l : List α) (s : σ)
    (hstep : ∀ t a, a ∈ l → P t → P (f t a))
    (hs : P s) : P (l.foldl f s) := by
  induction l generalizing s with
  | nil => simpa using hs
  | cons a l ih =>
    exact ih _ (fun t b hb => hstep t b (List.mem_cons_of_mem _ hb))
      (hstep s a (List.mem_cons_self a l) hs)

/-- Unfold one step of `foldlM` over `Except` on a cons cell. -/
theorem foldlM_cons_ok {ε : Type} (f : σ → α → Except ε σ) (a : α) (l : List α)
    (s s' : σ) (h : (a :: l).foldlM f s = .ok s') :
    ∃ t, f s a = .ok t ∧ l.foldlM f t = .ok s' := by
  simp only [List.foldlM] at h
  cases hf : f s a with
  | error e => rw [hf] at h; simp at h
  | ok t => rw [hf] at h; simp only [bindOk] at h; exact ⟨t, rfl, h⟩

end FoldLemmas

/-- The state of `deployPatrols` after all mutations of lines 425-437
(matrix cell and total, district counters, touched maps, distance cost),
before the total-coverage and fairness recomputations. -/
def deployApplied (st : St) (district community patrols : ℤ) : St :=
  addDistanceCost
    (setMaps (adjustDistrict (allocAdd st community district patrols) district patrols)
      community)
    district community patrols

/-- The `defaultdict` key insertion performed by the guard read of
line 494 of `undeployPatrols`. -/
def touchAlloc (st : St) (community district : ℤ) : St :=
  { st with deployments :=
      st.deployments.set community ((st.deployments.fn community).touch district) }

/-- The state of `undeployPatrols` after all mutations of lines 494-509. -/
def undeployApplied (st : St) (district community patrols : ℤ) : St :=
  addDistanceCost
    (setMaps (adjustDistrict
      (allocAdd (touchAlloc st community district) community district (-patrols))
      district (-patrols)) community)
    district community (-patrols)

section StateProjections

variable (st : St) (district community patrols p : ℤ)

@[simp] theorem allocAdd_loaded : (allocAdd st community district p).loaded = st.loaded := rfl
@[simp] theorem allocAdd_communities :
    (allocAdd st community district p).communities = st.communities := rfl
@[simp] theorem allocAdd_policeDistricts :
    (allocAdd st community district p).policeDistricts = st.policeDistricts := rfl
@[simp] theorem allocAdd_distances :
    (allocAdd st community district p).distances = st.distances := rfl
@[simp] theorem allocAdd_crimecounts :
    (allocAdd st community district p).crimecounts = st.crimecounts := rfl
@[simp] theorem allocAdd_mapCoverage :
    (allocAdd st community district p).mapCoverage = st.mapCoverage := rfl
@[simp] theorem allocAdd_mapCrimes :
    (allocAdd st community district p).mapCrimes = st.mapCrimes := rfl
@[simp] theorem allocAdd_totalCoverage :
    (allocAdd st community district p).totalCoverage = st.totalCoverage := rfl
@[simp] theorem allocAdd_distanceCost :
    (allocAdd st community district p).distanceCost = st.distanceCost := rfl
@[simp] theorem allocAdd_fairness :
    (allocAdd st community district p).fairness = st.fairness := rfl
theorem allocAdd_deployments :
    (allocAdd st community district p).deployments
      = st.deployments.set community ((st.deployments.fn community).addCell district p) := rfl

@[simp] theorem adjustDistrict_loaded : (adjustDistrict st district p).loaded = st.loaded := rfl
@[simp] theorem adjustDistrict_communities :
    (adjustDistrict st district p).communities = st.communities := rfl
@[simp] theorem adjustDistrict_deployments :
    (adjustDistrict st district p).deployments = st.deployments := rfl
@[simp] theorem adjustDistrict_distances :
    (adjustDistrict st district p).distances = st.distances := rfl
@[simp] theorem adjustDistrict_crimecounts :
    (adjustDistrict st district p).crimecounts = st.crimecounts := rfl
@[simp] theorem adjustDistrict_mapCoverage :
    (adjustDistrict st district p).mapCoverage = st.mapCoverage := rfl
@[simp] theorem adjustDistrict_mapCrimes :
    (adjustDistrict st district p).mapCrimes = st.mapCrimes := rfl
@[simp] theorem adjustDistrict_totalCoverage :
    (adjustDistrict st district p).totalCoverage = st.totalCoverage := rfl
@[simp] theorem adjustDistrict_distanceCost :
    (adjustDistrict st district p).distanceCost = st.distanceCost := rfl
@[simp] theorem adjustDistrict_fairness :
    (adjustDistrict st district p).fairness = st.fairness := rfl
theorem adjustDistrict_policeDistricts :
    (adjustDistrict st district p).policeDistricts
      = st.policeDistricts.set district
          { st.policeDistricts.fn district with
            available_patrols := (st.policeDistricts.fn district).available_patrols - p,
            deployed_patrols := (st.policeDistricts.fn district).deployed_patrols + p } := rfl

@[simp] theorem setMaps_loaded : (setMaps st community).loaded = st.loaded := rfl
@[simp] theorem setMaps_communities : (setMaps st community).communities = st.communities := rfl
@[simp] theorem setMaps_policeDistricts :
    (setMaps st community).policeDistricts = st.policeDistricts := rfl
@[simp] theorem setMaps_deployments : (setMaps st community).deployments = st.deployments := rfl
@[simp] theorem setMaps_distances : (setMaps st community).distances = st.distances := rfl
@[simp] theorem setMaps_crimecounts : (setMaps st community).crimecounts = st.crimecounts := rfl
@[simp] theorem setMaps_mapCrimes : (setMaps st community).mapCrimes = st.mapCrimes := rfl
@[simp] theorem setMaps_totalCoverage :
    (setMaps st community).totalCoverage = st.totalCoverage := rfl
@[simp] theorem setMaps_distanceCost :
    (setMaps st community).distanceCost = st.distanceCost := rfl
@[simp] theorem setMaps_fairness : (setMaps st community).fairness = st.fairness := rfl
theorem setMaps_mapCoverage :
    (setMaps st community).mapCoverage
      = st.mapCoverage.set (st.communities.fn community).code
          (commCoverage (st.deployments.fn community).total
            (st.crimecounts.fn (st.communities.fn community).code).weighted_count) := rfl
@[simp] theorem addDistanceCost_loaded :
    (addDistanceCost st district community p).loaded = st.loaded := rfl
@[simp] theorem addDistanceCost_communities :
    (addDistanceCost st district community p).communities = st.communities := rfl
@[simp] theorem addDistanceCost_policeDistricts :
    (addDistanceCost st district community p).policeDistricts = st.policeDistricts := rfl
@[simp] theorem addDistanceCost_deployments :
    (addDistanceCost st district community p).deployments = st.deployments := rfl
@[simp] theorem addDistanceCost_distances :
    (addDistanceCost st district community p).distances = st.distances := rfl
@[simp] theorem addDistanceCost_crimecounts :
    (addDistanceCost st district community p).crimecounts = st.crimecounts := rfl
@[simp] theorem addDistanceCost_mapCoverage :
    (addDistanceCost st district community p).mapCoverage = st.mapCoverage := rfl
@[simp] theorem addDistanceCost_mapCrimes :
    (addDistanceCost st district community p).mapCrimes = st.mapCrimes := rfl
@[simp] theorem addDistanceCost_totalCoverage :
    (addDistanceCost st district community p).totalCoverage = st.totalCoverage := rfl
@[simp] theorem addDistanceCost_fairness :
    (addDistanceCost st district community p).fairness = st.fairness := rfl
theorem addDistanceCost_distanceCost :
    (addDistanceCost st district community p).distanceCost
      = st.distanceCost + (p : ℚ) * st.distances.fn (district, community) := rfl

@[simp] theorem touchAlloc_loaded : (touchAlloc st community district).loaded = st.loaded := rfl
@[simp] theorem touchAlloc_communities :
    (touchAlloc st community district).communities = st.communities := rfl
@[simp] theorem touchAlloc_policeDistricts :
    (touchAlloc st community district).policeDistricts = st.policeDistricts := rfl
@[simp] theorem touchAlloc_distances :
    (touchAlloc st community district).distances = st.distances := rfl
@[simp] theorem touchAlloc_crimecounts :
    (touchAlloc st community district).crimecounts = st.crimecounts := rfl
@[simp] theorem touchAlloc_mapCoverage :
    (touchAlloc st community district).mapCoverage = st.mapCoverage := rfl
@[simp] theorem touchAlloc_mapCrimes :
    (touchAlloc st community district).mapCrimes = st.mapCrimes := rfl
@[simp] theorem touchAlloc_mapDeploys :
    (touchAlloc st community district).mapDeploys = st.mapDeploys := rfl
@[simp] theorem touchAlloc_totalCoverage :
    (touchAlloc st community district).totalCoverage = st.totalCoverage := rfl
@[simp] theorem touchAlloc_distanceCost :
    (touchAlloc st community district).distanceCost = st.distanceCost := rfl
@[simp] theorem touchAlloc_fairness :
    (touchAlloc st community district).fairness = st.fairness := rfl
theorem touchAlloc_deployments :
    (touchAlloc st community district).deployments
      = st.deployments.set community ((st.deployments.fn community).touch district) := rfl

@[simp] theorem Res.state_ok : (Res.ok st).state = st := rfl
@[simp] theorem Res.state_failed : (Res.failed st).state = st := rfl
@[simp] theorem Res.state_raised (e : PyErr) : (Res.raised e st).state = st := rfl
@[simp] theorem Res.isOk_ok : (Res.ok st).isOk = true := rfl
@[simp] theorem Res.isOk_failed : (Res.failed st).isOk = false := rfl
@[simp] theorem Res.isOk_raised (e : PyErr) : (Res.raised e st).isOk = false := rfl
@[simp] theorem Res.isFailed_ok : (Res.ok st).isFailed = false := rfl
@[simp] theorem Res.isFailed_failed : (Res.failed st).isFailed = true := rfl
@[simp] theorem Res.isFailed_raised (e : PyErr) : (Res.raised e st).isFailed = false := rfl

end StateProjections


theorem deployPatrols_capacity_failed {cdf : ℚ → ℤ → ℚ} {st : St} {district community patrols : ℤ}
    (hl : st.loaded = true) (hd : district ∈ st.policeDistricts.keys)
    (hcap : (st.policeDistricts.fn district).available_patrols < patrols) :
    deployPatrols cdf st district community patrols = .failed st := by
  simp [deployPatrols, hl, Dict.getE_ok_of_mem hd, hcap]

theorem deployPatrols_after_guard {cdf : ℚ → ℤ → ℚ} {st : St} {district community patrols : ℤ}
    (hl : st.loaded = true) (hd : district ∈ st.policeDistricts.keys)
    (hcap : ¬ (st.policeDistricts.fn district).available_patrols < patrols)
    (hc : community ∈ st.deployments.keys) :
    (deployPatrols cdf st district community patrols).isFailed = false ∧
    (deployPatrols cdf st district community patrols).state.deployments
      = (allocAdd st community district patrols).deployments ∧
    (deployPatrols cdf st district community patrols).state.policeDistricts
      = (adjustDistrict st district patrols).policeDistricts ∧
    (deployPatrols cdf st district community patrols).state.loaded = true := by
  simp only [deployPatrols, hl, Dict.getE_ok_of_mem hd, Dict.getE_ok_of_mem hc,
    if_neg hcap, Bool.not_true, Bool.false_eq_true, if_false]
  refine ⟨?_, ?_, ?_, ?_⟩ <;> (repeat' split) <;>
    simp [hl, adjustDistrict_policeDistricts]



theorem deployPatrols_frame {cdf : ℚ → ℤ → ℚ} {st : St} {district community patrols : ℤ}
    (hl : st.loaded = true) (hd : district ∈ st.policeDistricts.keys)
    (hcap : ¬ (st.policeDistricts.fn district).available_patrols < patrols)
    (hc : community ∈ st.deployments.keys) (hcm : community ∈ st.communities.keys)
    (hcc : (st.communities.fn community).code ∈ st.crimecounts.keys)
    (hdist : (district, community) ∈ st.distances.keys) :
    (deployPatrols cdf st district community patrols).isFailed = false ∧
    (deployPatrols cdf st district community patrols).state.deployments
      = (deployApplied st district community patrols).deployments ∧
    (deployPatrols cdf st district community patrols).state.policeDistricts
      = (deployApplied st district community patrols).policeDistricts ∧
    (deployPatrols cdf st district community patrols).state.mapCoverage
      = (deployApplied st district community patrols).mapCoverage ∧
    (deployPatrols cdf st district community patrols).state.mapDeploys
      = (deployApplied st district community patrols).mapDeploys ∧
    (deployPatrols cdf st district community patrols).state.distanceCost
      = (deployApplied st district community patrols).distanceCost := by
  simp only [deployPatrols, hl, Dict.getE_ok_of_mem hd, Dict.getE_ok_of_mem hc,
    if_neg hcap, Bool.not_true, Bool.false_eq_true, if_false,
    adjustDistrict_communities, allocAdd_communities, Dict.getE_ok_of_mem hcm,
    adjustDistrict_crimecounts, allocAdd_crimecounts, Dict.getE_ok_of_mem hcc,
    setMaps_distances, adjustDistrict_distances, allocAdd_distances, Dict.getE_ok_of_mem hdist]
  refine ⟨?_, ?_, ?_, ?_, ?_, ?_⟩ <;> (repeat' split) <;>
    simp [deployApplied, hl]

theorem deployPatrols_ok_inv {cdf : ℚ → ℤ → ℚ} {st : St} {district community patrols : ℤ}
    {st' : St} (h : deployPatrols cdf st district community patrols = .ok st') :
    st.loaded = true ∧ district ∈ st.policeDistricts.keys ∧
    ¬ (st.policeDistricts.fn district).available_patrols < patrols ∧
    community ∈ st.deployments.keys ∧ community ∈ st.communities.keys ∧
    (st.communities.fn community).code ∈ st.crimecounts.keys ∧
    (district, community) ∈ st.distances.keys ∧
    ∃ tcov tdf,
      computeTotalCoverage (allocAdd st community district patrols).deployments
        st.communities st.crimecounts = .ok tcov ∧
      calculateFairnessTStat st.communities
        (allocAdd st community district patrols).deployments = .ok tdf ∧
      st' = { deployApplied st district community patrols with
              totalCoverage := tcov, fairness := fairnessFromT cdf tdf.1 tdf.2 } := by
  simp only [deployPatrols] at h
  split at h
  · simp at h
  next hl =>
    have hl' : st.loaded = true := by
      by_contra hx
      exact hl (by simp [Bool.not_eq_true] at hx ⊢; exact hx)
    split at h
    · simp at h
    next di hdi =>
      obtain ⟨hdmem, hdfn⟩ := Dict.getE_ok_iff.mp hdi
      split at h
      · simp at h
      next hcap =>
        split at h
        · simp at h
        next cd0 hcd =>
          obtain ⟨hcmem, _⟩ := Dict.getE_ok_iff.mp hcd
          split at h
          · simp at h
          next ci hci =>
            simp only [adjustDistrict_communities, allocAdd_communities] at hci
            obtain ⟨hcmmem, hcifn⟩ := Dict.getE_ok_iff.mp hci
            split at h
            · simp at h
            next cc hcc' =>
              simp only [adjustDistrict_crimecounts, allocAdd_crimecounts] at hcc'
              obtain ⟨hccmem, _⟩ := Dict.getE_ok_iff.mp hcc'
              split at h
              · simp at h
              next dv hdv =>
                simp only [setMaps_distances, adjustDistrict_distances, allocAdd_distances] at hdv
                obtain ⟨hdvmem, _⟩ := Dict.getE_ok_iff.mp hdv
                split at h
                · simp at h
                next tcov htcov =>
                  split at h
                  · simp at h
                  next tdf htdf =>
                    simp only [Res.ok.injEq] at h
                    refine ⟨hl', hdmem, by rw [hdfn]; exact hcap, hcmem, hcmmem,
                      by rw [hcifn]; exact hccmem, hdvmem, tcov, tdf, ?_, ?_, ?_⟩
                    · exact htcov
                    · exact htdf
                    · rw [← h]
                      simp [deployApplied, hcifn]


theorem undeployPatrols_insufficient_failed {cdf : ℚ → ℤ → ℚ} {st : St}
    {district community patrols : ℤ}
    (hl : st.loaded = true) (hc : community ∈ st.deployments.keys)
    (hguard : (st.deployments.fn community).getd district < patrols) :
    undeployPatrols cdf st district community patrols
      = .failed (touchAlloc st community district) := by
  simp [undeployPatrols, hl, Dict.getE_ok_of_mem hc, hguard, touchAlloc]

theorem undeployPatrols_frame {cdf : ℚ → ℤ → ℚ} {st : St} {district community patrols : ℤ}
    (hl : st.loaded = true) (hc : community ∈ st.deployments.keys)
    (hguard : ¬ (st.deployments.fn community).getd district < patrols)
    (hd : district ∈ st.policeDistricts.keys) (hcm : community ∈ st.communities.keys)
    (hcc : (st.communities.fn community).code ∈ st.crimecounts.keys)
    (hdist : (district, community) ∈ st.distances.keys) :
    (undeployPatrols cdf st district community patrols).isFailed = false ∧
    (undeployPatrols cdf st district community patrols).state.deployments
      = (undeployApplied st district community patrols).deployments ∧
    (undeployPatrols cdf st district community patrols).state.policeDistricts
      = (undeployApplied st district community patrols).policeDistricts ∧
    (undeployPatrols cdf st district community patrols).state.mapCoverage
      = (undeployApplied st district community patrols).mapCoverage ∧
    (undeployPatrols cdf st district community patrols).state.mapDeploys
      = (undeployApplied st district community patrols).mapDeploys ∧
    (undeployPatrols cdf st district community patrols).state.distanceCost
      = (undeployApplied st district community patrols).distanceCost := by
  simp only [undeployPatrols, hl, Dict.getE_ok_of_mem hc, if_neg hguard,
    Bool.not_true, Bool.false_eq_true, if_false,
    touchAlloc_policeDistricts, allocAdd_policeDistricts, Dict.getE_ok_of_mem hd,
    adjustDistrict_communities, allocAdd_communities, touchAlloc_communities,
    Dict.getE_ok_of_mem hcm,
    adjustDistrict_crimecounts, allocAdd_crimecounts, touchAlloc_crimecounts,
    Dict.getE_ok_of_mem hcc,
    setMaps_distances, adjustDistrict_distances, allocAdd_distances, touchAlloc_distances,
    Dict.getE_ok_of_mem hdist]
  refine ⟨?_, ?_, ?_, ?_, ?_, ?_⟩ <;> (repeat' split) <;>
    simp [undeployApplied, touchAlloc, hl]

theorem undeployPatrols_ok_inv {cdf : ℚ → ℤ → ℚ} {st : St} {district community patrols : ℤ}
    {st' : St} (h : undeployPatrols cdf st district community patrols = .ok st') :
    st.loaded = true ∧ community ∈ st.deployments.keys ∧
    ¬ (st.deployments.fn community).getd district < patrols ∧
    district ∈ st.policeDistricts.keys ∧ community ∈ st.communities.keys ∧
    (st.communities.fn community).code ∈ st.crimecounts.keys ∧
    (district, community) ∈ st.distances.keys ∧
    ∃ tcov tdf,
      computeTotalCoverage
        (allocAdd (touchAlloc st community district) community district (-patrols)).deployments
        st.communities st.crimecounts = .ok tcov ∧
      calculateFairnessTStat st.communities
        (allocAdd (touchAlloc st community district) community district (-patrols)).deployments
        = .ok tdf ∧
      st' = { undeployApplied st district community patrols with
              totalCoverage := tcov, fairness := fairnessFromT cdf tdf.1 tdf.2 } := by
  simp only [undeployPatrols] at h
  split at h
  · simp at h
  next hl =>
    have hl' : st.loaded = true := by
      by_contra hx
      exact hl (by simp [Bool.not_eq_true] at hx ⊢; exact hx)
    split at h
    · simp at h
    next cd0 hcd =>
      obtain ⟨hcmem, hcfn⟩ := Dict.getE_ok_iff.mp hcd
      split at h
      · simp at h
      next hguard =>
        split at h
        · simp at h
        next di hdi =>
          simp only [allocAdd_policeDistricts, touchAlloc_policeDistricts] at hdi
          obtain ⟨hdmem, _⟩ := Dict.getE_ok_iff.mp hdi
          split at h
          · simp at h
          next ci hci =>
            simp only [adjustDistrict_communities, allocAdd_communities,
              touchAlloc_communities] at hci
            obtain ⟨hcmmem, hcifn⟩ := Dict.getE_ok_iff.mp hci
            split at h
            · simp at h
            next cc hcc' =>
              simp only [adjustDistrict_crimecounts, allocAdd_crimecounts,
                touchAlloc_crimecounts] at hcc'
              obtain ⟨hccmem, _⟩ := Dict.getE_ok_iff.mp hcc'
              split at h
              · simp at h
              next dv hdv =>
                simp only [setMaps_distances, adjustDistrict_distances, allocAdd_distances,
                  touchAlloc_distances] at hdv
                obtain ⟨hdvmem, _⟩ := Dict.getE_ok_iff.mp hdv
                split at h
                · simp at h
                next tcov htcov =>
                  split at h
                  · simp at h
                  next tdf htdf =>
                    simp only [Res.ok.injEq] at h
                    refine ⟨hl', hcmem, by rw [hcfn]; exact hguard, hdmem, hcmmem,
                      by rw [hcifn]; exact hccmem, hdvmem, tcov, tdf, ?_, ?_, ?_⟩
                    · rw [← htcov]
                      congr 1
                      simp [touchAlloc, hcfn]
                    · rw [← htdf]
                      congr 1
                      simp [touchAlloc, hcfn]
                    · rw [← h]
                      simp [undeployApplied, touchAlloc, hcifn, hcfn]


theorem Res.eq_ok_of_isOk {r : Res} (h : r.isOk = true) : r = .ok r.state := by
  cases r <;> simp_all

def cSt3 : St :=
  { loaded := true,
    communities := ⟨[1], fun _ => ⟨"c1", 1, 0⟩⟩,
    policeDistricts := ⟨[1], fun _ => ⟨"d1", 5, 5, 0⟩⟩,
    deployments := ⟨[1], fun _ => CommDeploys.empty⟩,
    distances := ⟨[(1, 1)], fun _ => 1⟩,
    crimecounts := ⟨[1], fun _ => ⟨0, 0⟩⟩,
    mapCoverage := ⟨[1], fun _ => 0⟩,
    mapCrimes := ⟨[1], fun _ => 0⟩,
    mapDeploys := ⟨[1], fun _ => 0⟩,
    totalCoverage := 0, distanceCost := 0, fairness := 0 }

def cSt5 : St :=
  { cSt3 with crimecounts := ⟨[1], fun _ => ⟨6, 6⟩⟩ }

/-- Claim C5, counterexample: the claim requires `assign` to fail with a
capacity error whenever `patrols ≤ 0`, but `deployPatrols` has no
positivity check: on a loaded single-community session, assigning 0
patrols returns success. -/
theorem C5_counterexample_zero_patrols_succeeds :
    (deployPatrols cdfHalf cSt5 1 1 0).isOk = true := by
  norm_num [deployPatrols, cSt5, cSt3, Dict.getE, Dict.set, allocAdd, adjustDistrict, setMaps,
    addDistanceCost, CommDeploys.addCell, CommDeploys.getd, CommDeploys.empty, commCoverage,
    computeTotalCoverage, computeTotals, calculateFairnessTStat, fairnessCounts,
    fairnessVarSums, bucket1, n_crimes_per_patrol, List.foldlM, Function.update]

/-- Claim C5, amended: the capacity guard `available < patrols` is the only
argument check of `assign`.  The edit fails (with the state returned
unchanged) exactly when `patrols` exceeds the available count; for any
other `patrols` — including zero and negative values — the matrix cell,
the community total and the district counters are updated; in particular
`patrols = available` drives the available count to 0 (and
`patrols = available + 1` fails). -/
theorem C5_assign_capacity_guard (cdf : ℚ → ℤ → ℚ) (st : St) (district community patrols : ℤ)
    (hl : st.loaded = true) (hd : district ∈ st.policeDistricts.keys)
    (hc : community ∈ st.deployments.keys) :
    ((st.policeDistricts.fn district).available_patrols < patrols →
      deployPatrols cdf st district community patrols = .failed st) ∧
    (¬ (st.policeDistricts.fn district).available_patrols < patrols →
      (deployPatrols cdf st district community patrols).isFailed = false ∧
      (((deployPatrols cdf st district community patrols).state.deployments.fn community).getd
          district = (st.deployments.fn community).getd district + patrols) ∧
      (((deployPatrols cdf st district community patrols).state.deployments.fn community).total
          = (st.deployments.fn community).total + patrols) ∧
      (((deployPatrols cdf st district community patrols).state.policeDistricts.fn
          district).available_patrols
          = (st.policeDistricts.fn district).available_patrols - patrols) ∧
      (((deployPatrols cdf st district community patrols).state.policeDistricts.fn
          district).deployed_patrols
          = (st.policeDistricts.fn district).deployed_patrols + patrols)) ∧
    (patrols = (st.policeDistricts.fn district).available_patrols →
      ((deployPatrols cdf st district community patrols).state.policeDistricts.fn
          district).available_patrols = 0) := by
  refine ⟨fun hcap => deployPatrols_capacity_failed hl hd hcap, fun hcap => ?_, fun hp => ?_⟩
  · obtain ⟨hf, hdep, hpd, -⟩ := @deployPatrols_after_guard cdf _ _ _ _ hl hd hcap hc
    refine ⟨hf, ?_, ?_, ?_, ?_⟩
    · rw [hdep, allocAdd_deployments, Dict.set_fn_same, CommDeploys.getd_addCell_same]
    · rw [hdep, allocAdd_deployments, Dict.set_fn_same, CommDeploys.addCell_total]
    · rw [hpd, adjustDistrict_policeDistricts, Dict.set_fn_same]
    · rw [hpd, adjustDistrict_policeDistricts, Dict.set_fn_same]
  · have hcap : ¬ (st.policeDistricts.fn district).available_patrols < patrols := by
      rw [hp]; exact lt_irrefl _
    obtain ⟨-, -, hpd, -⟩ := @deployPatrols_after_guard cdf _ _ _ _ hl hd hcap hc
    rw [hpd, adjustDistrict_policeDistricts, Dict.set_fn_same]
    simp [hp]

/-- Witness for `C5_assign_capacity_guard`: on the concrete session `cSt5`
(5 available patrols), assigning 6 fails with the state unchanged, and
assigning exactly 5 succeeds and drives the available count to 0. -/
theorem C5_assign_capacity_guard_witness :
    deployPatrols cdfHalf cSt5 1 1 6 = .failed cSt5 ∧
    ((deployPatrols cdfHalf cSt5 1 1 5).state.policeDistricts.fn 1).available_patrols = 0 := by
  constructor
  · exact (C5_assign_capacity_guard cdfHalf cSt5 1 1 6 rfl (by decide) (by decide)).1 (by decide)
  · exact (C5_assign_capacity_guard cdfHalf cSt5 1 1 5 rfl (by decide) (by decide)).2.2 (by decide)



/-- One community of ethnicity 0 (bucket `comm_count[1]`), none in the
other bucket, with a nonzero allocation total. -/
def cC7comms : Dict ℤ CommInfo := ⟨[1], fun _ => ⟨"c1", 1, 0⟩⟩

def cC7plan : Dict ℤ CommDeploys := ⟨[1], fun _ => ⟨[1], fun _ => 5, 5⟩⟩

/-- Claim C7, counterexample: the claim says the fairness statistic returns
a neutral score whenever either demographic group has zero communities;
but with an empty `comm_count[0]` bucket and a nonzero deployment total,
`calculateFairnessTStat` divides by the zero community count
(`deploy_count[0]/comm_count[0]`, line 201) and raises. -/
theorem C7_counterexample_empty_group_raises :
    errOf (calculateFairnessTStat cC7comms cC7plan) = some .zeroDivision := rfl

/-- Claim C7, amended: the zero-variance short-circuit of lines 197-199 is
keyed on the deployment totals, not on the group sizes: when both bucket
deployment totals are 0 the statistic returns `(0, df)` without computing
variances (even when a bucket is empty); but when the totals are not both
zero and either bucket has zero communities, the mean computation divides
by the zero count and raises a division error instead of returning a
neutral score. -/
theorem C7_fairness_neutral_and_empty_group :
    (∀ (communities : Dict ℤ CommInfo) (plan : Dict ℤ CommDeploys) (cc0 cc1 : ℤ),
      fairnessCounts communities plan = .ok (cc0, cc1, 0, 0) →
      calculateFairnessTStat communities plan = .ok (0, cc0 + cc1 - 2)) ∧
    (∀ (communities : Dict ℤ CommInfo) (plan : Dict ℤ CommDeploys) (cc0 cc1 dc0 dc1 : ℤ),
      fairnessCounts communities plan = .ok (cc0, cc1, dc0, dc1) →
      ¬ (dc0 = 0 ∧ dc1 = 0) → cc0 = 0 ∨ cc1 = 0 →
      calculateFairnessTStat communities plan = .error .zeroDivision) := by
  constructor
  · intro communities plan cc0 cc1 h
    simp [calculateFairnessTStat, h]
  · intro communities plan cc0 cc1 dc0 dc1 h hne hcc
    simp only [calculateFairnessTStat, h, bindOk]
    rw [if_neg hne]
    rcases hcc with h0 | h1
    · simp [h0]
    · by_cases h0 : cc0 = 0
      · simp [h0]
      · simp [h0, h1]

/-- Witness for `C7_fairness_neutral_and_empty_group`: with the single
bucket-1 community of `cC7comms`, an all-zero plan short-circuits to the
neutral `(0, -1)`, and the nonzero plan `cC7plan` raises. -/
theorem C7_fairness_neutral_and_empty_group_witness :
    calculateFairnessTStat cC7comms (⟨[1], fun _ => CommDeploys.empty⟩ : Dict ℤ CommDeploys)
      = .ok (0, -1) ∧
    calculateFairnessTStat cC7comms cC7plan = .error .zeroDivision := by
  constructor
  · exact C7_fairness_neutral_and_empty_group.1 cC7comms _ 0 1 rfl
  · exact C7_fairness_neutral_and_empty_group.2 cC7comms cC7plan 0 1 0 5 rfl
      (by decide) (Or.inl rfl)

/-- Two communities, one per bucket. -/
def cC9comms : Dict ℤ CommInfo :=
  ⟨[1, 2], fun c => if c = 1 then ⟨"c1", 1, 0⟩ else ⟨"c2", 2, 7⟩⟩

/-- Both communities carry the identical nonzero total 5. -/
def cC9plan : Dict ℤ CommDeploys :=
  ⟨[1, 2], fun _ => ⟨[1], fun _ => 5, 5⟩⟩

/-- Claim C9, counterexample: with one community per bucket and identical
nonzero allocation totals, the claim promises `t = 0` and fairness 100;
instead the sample-variance normalization divides by `comm_count - 1 = 0`
(line 211) and raises. -/
theorem C9_counterexample_single_groups_raise :
    errOf (calculateFairnessTStat cC9comms cC9plan) = some .zeroDivision := rfl

/-- Claim C9, amended: with exactly one community in each bucket and equal
totals `T`, the statistic raises a division error whenever `T ≠ 0` (the
`n - 1` variance denominators are zero); only for `T = 0` does the
zero-total short-circuit yield `t = 0` — and then with `df = 0`, for which
the downstream Student t CDF is undefined, so no fairness score of 100 is
produced on either path. -/
theorem C9_single_community_groups (communities : Dict ℤ CommInfo)
    (plan : Dict ℤ CommDeploys) (a b T : ℤ)
    (hkeys : plan.keys = [a, b]) (hma : a ∈ communities.keys) (hmb : b ∈ communities.keys)
    (hb1 : bucket1 (communities.fn a)) (hb0 : ¬ bucket1 (communities.fn b))
    (hta : (plan.fn a).total = T) (htb : (plan.fn b).total = T) :
    (T = 0 → calculateFairnessTStat communities plan = .ok (0, 0)) ∧
    (T ≠ 0 → calculateFairnessTStat communities plan = .error .zeroDivision) := by
  have hfc : fairnessCounts communities plan = .ok (1, 1, T, T) := by
    simp [fairnessCounts, hkeys, List.foldlM, Dict.getE_ok_of_mem hma,
      Dict.getE_ok_of_mem hmb, hb1, hb0, hta, htb]
  constructor
  · intro hT
    subst hT
    simp [calculateFairnessTStat, hfc]
  · intro hT
    have hvs : ∀ m0 m1 : ℚ, fairnessVarSums communities plan m0 m1
        = .ok ((((plan.fn b).total : ℚ) - m0) ^ 2, (((plan.fn a).total : ℚ) - m1) ^ 2) := by
      intro m0 m1
      simp [fairnessVarSums, hkeys, List.foldlM, Dict.getE_ok_of_mem hma,
        Dict.getE_ok_of_mem hmb, hb1, hb0]
    simp [calculateFairnessTStat, hfc, hT, hvs]

/-- Witness for `C9_single_community_groups` at the concrete pair
`cC9comms`/`cC9plan` (totals 5) and its all-zero variant. -/
theorem C9_single_community_groups_witness :
    calculateFairnessTStat cC9comms cC9plan = .error .zeroDivision ∧
    calculateFairnessTStat cC9comms (⟨[1, 2], fun _ => CommDeploys.empty⟩ : Dict ℤ CommDeploys)
      = .ok (0, 0) := by
  constructor
  · exact (C9_single_community_groups cC9comms cC9plan 1 2 5 rfl (by decide) (by decide)
      (by decide) (by decide) rfl rfl).2 (by decide)
  · exact (C9_single_community_groups cC9comms _ 1 2 0 rfl (by decide) (by decide)
      (by decide) (by decide) rfl rfl).1 rfl



/-- A loaded 4-community session: communities 1,2 in the unclassified
bucket, 3,4 in the ethnicity-0/1 bucket, one district with capacity 10 of
which 7 are deployed (cells 2,1,1,3), weighted demand 6 on community 1,
stale KPI scalars. -/
def cSt8 : St :=
  { loaded := true,
    communities := ⟨[1, 2, 3, 4], fun c =>
      if c = 1 then ⟨"c1", 1, 9⟩ else if c = 2 then ⟨"c2", 2, 9⟩
      else if c = 3 then ⟨"c3", 3, 0⟩ else ⟨"c4", 4, 1⟩⟩,
    policeDistricts := ⟨[1], fun _ => ⟨"d1", 10, 3, 7⟩⟩,
    deployments := ⟨[1, 2, 3, 4], fun c =>
      if c = 1 then ⟨[1], fun _ => 2, 2⟩ else if c = 2 then ⟨[1], fun _ => 1, 1⟩
      else if c = 3 then ⟨[1], fun _ => 1, 1⟩ else ⟨[1], fun _ => 3, 3⟩⟩,
    distances := ⟨[(1, 1), (1, 2), (1, 3), (1, 4)], fun _ => 1⟩,
    crimecounts := ⟨[1, 2, 3, 4], fun c => if c = 1 then ⟨6, 6⟩ else ⟨0, 0⟩⟩,
    mapCoverage := ⟨[1, 2, 3, 4], fun _ => 0⟩,
    mapCrimes := ⟨[1, 2, 3, 4], fun _ => 0⟩,
    mapDeploys := ⟨[1, 2, 3, 4], fun _ => 0⟩,
    totalCoverage := 0, distanceCost := 7, fairness := 37 }

/-- The concrete edit of `C8_counterexample_citywide_and_fairness_refreshed`
succeeds. -/
theorem cSt8_deploy_isOk : (deployPatrols cdfHalf cSt8 1 1 1).isOk = true := by
  norm_num [deployPatrols, cSt8, Dict.getE, Dict.set, allocAdd, adjustDistrict, setMaps,
    addDistanceCost, CommDeploys.addCell, CommDeploys.getd, CommDeploys.empty, commCoverage,
    computeTotalCoverage, computeTotals, calculateFairnessTStat, fairnessCounts,
    fairnessVarSums, fairnessFromT, cdfHalf, ratSqrt, isqrt, isqrtGo, bucket1,
    n_crimes_per_patrol, List.foldlM, Function.update]

theorem C3_counterexample_citywide_division_raises :
    (deployPatrols cdfHalf cSt3 1 1 2).isRaisedWith .zeroDivision = true ∧
    errOf (loadDeploymentPlan cdfHalf [⟨1, 1, "c1", 0⟩] [⟨1, 1, 1⟩] [] [⟨1, "d1", 5⟩] [])
      = some .zeroDivision := by
  constructor
  · norm_num [deployPatrols, cSt3, Dict.getE, Dict.set, allocAdd, adjustDistrict, setMaps,
      addDistanceCost, CommDeploys.addCell, CommDeploys.getd, CommDeploys.empty, commCoverage,
      computeTotalCoverage, computeTotals, n_crimes_per_patrol, List.foldlM,
      Function.update, Res.isRaisedWith]
  · norm_num [loadDeploymentPlan, loadCommunities, loadDeployments0, loadCrimecounts0,
      loadCodeMapQ, loadMapDeploys0, loadDistances, loadDistricts0, predsLoop, histStep,
      Dict.getE, Dict.set, Dict.empty, CommDeploys.empty, computeTotalCoverage,
      computeTotals, n_crimes_per_patrol, List.foldlM, List.foldl, Function.update, errOf]

/-- Claim C3, amended (see docstring of each conjunct in order): (1) the
shared city-wide recomputation raises on zero total weighted demand;
(2) a guard-passing edit whose post-edit total weighted demand is 0
raises a division error, with the mutations of lines 425-437 left in
place; (3) the per-community coverage of the touched community degrades
to 0 when its weighted count is 0; (4) the load path raises the same
division error when the loaded session's total weighted demand is 0. -/
theorem C3_citywide_coverage_division :
    (∀ (deps : Dict ℤ CommDeploys) (comms : Dict ℤ CommInfo) (ccs : Dict ℤ CrimeCount)
      (td : ℤ), computeTotals deps comms ccs = .ok (0, td) →
      computeTotalCoverage deps comms ccs = .error .zeroDivision) ∧
    (∀ (cdf : ℚ → ℤ → ℚ) (st : St) (district community patrols : ℤ) (td : ℤ),
      st.loaded = true → district ∈ st.policeDistricts.keys →
      ¬ (st.policeDistricts.fn district).available_patrols < patrols →
      community ∈ st.deployments.keys → community ∈ st.communities.keys →
      (st.communities.fn community).code ∈ st.crimecounts.keys →
      (district, community) ∈ st.distances.keys →
      computeTotals (allocAdd st community district patrols).deployments
        st.communities st.crimecounts = .ok (0, td) →
      deployPatrols cdf st district community patrols
        = .raised .zeroDivision (deployApplied st district community patrols)) ∧
    (∀ (cdf : ℚ → ℤ → ℚ) (st : St) (district community patrols : ℤ),
      st.loaded = true → district ∈ st.policeDistricts.keys →
      ¬ (st.policeDistricts.fn district).available_patrols < patrols →
      community ∈ st.deployments.keys → community ∈ st.communities.keys →
      (st.communities.fn community).code ∈ st.crimecounts.keys →
      (district, community) ∈ st.distances.keys →
      (st.crimecounts.fn (st.communities.fn community).code).weighted_count = 0 →
      (deployPatrols cdf st district community patrols).state.mapCoverage.fn
        (st.communities.fn community).code = 0) ∧
    (∀ (cdf : ℚ → ℤ → ℚ) (dbCommunities : List CommunityRow)
      (dbDistances : List DistanceRow) (crimepreds : List PredRow)
      (dbDistricts : List DistrictRow) (dbDeployments : List DeployRow)
      (ccs : Dict ℤ CrimeCount) (mcs : Dict ℤ ℚ) (acc : HistAcc) (td : ℤ),
      predsLoop (loadCommunities dbCommunities) crimepreds
        (loadCrimecounts0 dbCommunities) (loadCodeMapQ dbCommunities) = .ok (ccs, mcs) →
      dbDeployments.foldlM
        (histStep (loadCommunities dbCommunities) ccs (loadDistances dbDistances))
        ⟨loadDeployments0 dbCommunities, loadDistricts0 dbDistricts,
         loadCodeMapQ dbCommunities, loadMapDeploys0 dbCommunities, 0⟩ = .ok acc →
      computeTotals acc.deployments (loadCommunities dbCommunities) ccs = .ok (0, td) →
      loadDeploymentPlan cdf dbCommunities dbDistances crimepreds dbDistricts dbDeployments
        = .error .zeroDivision) := by
  have hcov : ∀ (deps : Dict ℤ CommDeploys) (comms : Dict ℤ CommInfo)
      (ccs : Dict ℤ CrimeCount) (td : ℤ), computeTotals deps comms ccs = .ok (0, td) →
      computeTotalCoverage deps comms ccs = .error .zeroDivision := by
    intro deps comms ccs td h
    simp [computeTotalCoverage, h]
  refine ⟨hcov, ?_, ?_, ?_⟩
  · intro cdf st district community patrols td hl hd hcap hc hcm hcc hdist htot
    have hc' : computeTotalCoverage (allocAdd st community district patrols).deployments
        st.communities st.crimecounts = .error .zeroDivision := hcov _ _ _ _ htot
    simp only [deployPatrols, hl, Dict.getE_ok_of_mem hd, Dict.getE_ok_of_mem hc,
      if_neg hcap, Bool.not_true, Bool.false_eq_true, if_false,
      adjustDistrict_communities, allocAdd_communities, Dict.getE_ok_of_mem hcm,
      adjustDistrict_crimecounts, allocAdd_crimecounts, Dict.getE_ok_of_mem hcc,
      setMaps_distances, adjustDistrict_distances, allocAdd_distances,
      Dict.getE_ok_of_mem hdist, addDistanceCost_deployments, setMaps_deployments,
      adjustDistrict_deployments, addDistanceCost_communities, setMaps_communities,
      addDistanceCost_crimecounts, setMaps_crimecounts, hc']
    rfl
  · intro cdf st district community patrols hl hd hcap hc hcm hcc hdist hw
    obtain ⟨-, -, -, hmapcov, -, -⟩ :=
      @deployPatrols_frame cdf _ _ _ _ hl hd hcap hc hcm hcc hdist
    rw [hmapcov]
    show (deployApplied st district community patrols).mapCoverage.fn _ = 0
    simp only [deployApplied, addDistanceCost_mapCoverage, setMaps_mapCoverage,
      adjustDistrict_communities, allocAdd_communities, adjustDistrict_crimecounts,
      allocAdd_crimecounts, adjustDistrict_mapCoverage, allocAdd_mapCoverage]
    rw [Dict.set_fn_same]
    simp [commCoverage, hw]
  · intro cdf dbCommunities dbDistances crimepreds dbDistricts dbDeployments
      ccs mcs acc td h1 h2 htot
    have hc' := hcov _ _ _ _ htot
    simp [loadDeploymentPlan, h1, h2, hc']

/-- Witness for `C3_citywide_coverage_division` at the concrete inputs of
the counterexample: part 2 applied to the edit on `cSt3` and part 4 to
the one-community load. -/
theorem C3_citywide_coverage_division_witness :
    deployPatrols cdfHalf cSt3 1 1 2 = .raised .zeroDivision (deployApplied cSt3 1 1 2) ∧
    (deployPatrols cdfHalf cSt3 1 1 2).state.mapCoverage.fn 1 = 0 ∧
    loadDeploymentPlan cdfHalf [⟨1, 1, "c1", 0⟩] [⟨1, 1, 1⟩] [] [⟨1, "d1", 5⟩] []
      = .error .zeroDivision := by
  have htot : computeTotals (allocAdd cSt3 1 1 2).deployments cSt3.communities
      cSt3.crimecounts = .ok (0, 2) := by
    simp [computeTotals, cSt3, allocAdd, Dict.set, Dict.getE, CommDeploys.addCell,
      CommDeploys.getd, CommDeploys.empty, List.foldlM, Function.update]
  refine ⟨?_, ?_, ?_⟩
  · exact C3_citywide_coverage_division.2.1 cdfHalf cSt3 1 1 2 2 rfl (by decide) (by decide)
      (by decide) (by decide) (by decide) (by decide) htot
  · exact C3_citywide_coverage_division.2.2.1 cdfHalf cSt3 1 1 2 rfl (by decide) (by decide)
      (by decide) (by decide) (by decide) (by decide) (by decide)
  · have h1 : predsLoop (loadCommunities [⟨1, 1, "c1", 0⟩]) []
        (loadCrimecounts0 [⟨1, 1, "c1", 0⟩]) (loadCodeMapQ [⟨1, 1, "c1", 0⟩])
        = .ok (loadCrimecounts0 [⟨1, 1, "c1", 0⟩], loadCodeMapQ [⟨1, 1, "c1", 0⟩]) := rfl
    have h2 : ([] : List DeployRow).foldlM
        (histStep (loadCommunities [⟨1, 1, "c1", 0⟩]) (loadCrimecounts0 [⟨1, 1, "c1", 0⟩])
          (loadDistances [⟨1, 1, 1⟩]))
        ⟨loadDeployments0 [⟨1, 1, "c1", 0⟩], loadDistricts0 [⟨1, "d1", 5⟩],
         loadCodeMapQ [⟨1, 1, "c1", 0⟩], loadMapDeploys0 [⟨1, 1, "c1", 0⟩], 0⟩
        = .ok ⟨loadDeployments0 [⟨1, 1, "c1", 0⟩], loadDistricts0 [⟨1, "d1", 5⟩],
               loadCodeMapQ [⟨1, 1, "c1", 0⟩], loadMapDeploys0 [⟨1, 1, "c1", 0⟩], 0⟩ := rfl
    exact C3_citywide_coverage_division.2.2.2 cdfHalf _ _ _ _ _ _ _ _ 0 h1 h2 (by
      simp [computeTotals, loadDeployments0, loadCommunities, loadCrimecounts0,
        Dict.set, Dict.getE, Dict.empty, CommDeploys.empty, List.foldlM, List.foldl,
        Function.update])



/-- Claim C6: a successful `assign(c,d,k)` on a state whose touched cell is
nonnegative (as every cell of the data model is), followed by
`unassign(c,d,k)`, restores every allocation cell, every community total,
every district's counters and the distance cost exactly. -/
theorem C6_assign_unassign_roundtrip {cdf : ℚ → ℤ → ℚ} {st : St}
    {district community patrols : ℤ} {st₁ : St}
    (hcell : 0 ≤ (st.deployments.fn community).getd district)
    (h : deployPatrols cdf st district community patrols = .ok st₁) :
    (undeployPatrols cdf st₁ district community patrols).isFailed = false ∧
    (∀ c' d', ((undeployPatrols cdf st₁ district community patrols).state.deployments.fn
        c').getd d' = (st.deployments.fn c').getd d') ∧
    (∀ c', ((undeployPatrols cdf st₁ district community patrols).state.deployments.fn
        c').total = (st.deployments.fn c').total) ∧
    (∀ d', (undeployPatrols cdf st₁ district community patrols).state.policeDistricts.fn d'
        = st.policeDistricts.fn d') ∧
    (undeployPatrols cdf st₁ district community patrols).state.distanceCost
      = st.distanceCost := by
  obtain ⟨hl, hd, hcap, hc, hcm, hcc, hdist, tcov, tdf, htcov, htdf, hst1⟩ :=
    deployPatrols_ok_inv h
  have h1deps : st₁.deployments = st.deployments.set community
      ((st.deployments.fn community).addCell district patrols) := by
    rw [hst1]; rfl
  have h1fn : st₁.deployments.fn community
      = (st.deployments.fn community).addCell district patrols := by
    rw [h1deps]; exact Dict.set_fn_same _ _ _
  have h1pd : st₁.policeDistricts = (adjustDistrict st district patrols).policeDistricts := by
    rw [hst1]; rfl
  have h1comm : st₁.communities = st.communities := by rw [hst1]; rfl
  have h1cc : st₁.crimecounts = st.crimecounts := by rw [hst1]; rfl
  have h1dist : st₁.distances = st.distances := by rw [hst1]; rfl
  have h1cost : st₁.distanceCost
      = st.distanceCost + (patrols : ℚ) * st.distances.fn (district, community) := by
    rw [hst1]; rfl
  have h1loaded : st₁.loaded = true := by rw [hst1]; exact hl
  have hfnset : (st.deployments.set community ((st.deployments.fn community).addCell
      district patrols)).fn community
      = (st.deployments.fn community).addCell district patrols := Dict.set_fn_same _ _ _
  have h1c : community ∈ st₁.deployments.keys := by
    rw [h1deps]; exact Dict.mem_set_keys.mpr (Or.inl hc)
  have h1guard : ¬ (st₁.deployments.fn community).getd district < patrols := by
    rw [h1fn, CommDeploys.getd_addCell_same]; omega
  have h1d : district ∈ st₁.policeDistricts.keys := by
    rw [h1pd, adjustDistrict_policeDistricts]
    exact Dict.mem_set_keys.mpr (Or.inl hd)
  have hcm₁ : community ∈ st₁.communities.keys := h1comm ▸ hcm
  have hcc₁ : (st₁.communities.fn community).code ∈ st₁.crimecounts.keys := by
    rw [h1comm, h1cc]; exact hcc
  have hdist₁ : (district, community) ∈ st₁.distances.keys := h1dist ▸ hdist
  obtain ⟨hf, hdep2, hpd2, -, -, hcost2⟩ :=
    @undeployPatrols_frame cdf _ _ _ _ h1loaded h1c h1guard h1d hcm₁ hcc₁ hdist₁
  have hUdep : (undeployApplied st₁ district community patrols).deployments
      = (st₁.deployments.set community
          ((st₁.deployments.fn community).touch district)).set community
          (((st₁.deployments.fn community).touch district).addCell district (-patrols)) := by
    simp only [undeployApplied, addDistanceCost_deployments, setMaps_deployments,
      adjustDistrict_deployments, allocAdd_deployments, touchAlloc_deployments,
      Dict.set_fn_same]
  have hUpd : (undeployApplied st₁ district community patrols).policeDistricts
      = (adjustDistrict (touchAlloc st₁ community district) district
          (-patrols)).policeDistricts := by
    simp only [undeployApplied, addDistanceCost_policeDistricts, setMaps_policeDistricts,
      adjustDistrict_policeDistricts, allocAdd_policeDistricts, touchAlloc_policeDistricts]
  have hUcost : (undeployApplied st₁ district community patrols).distanceCost
      = st₁.distanceCost + (-patrols : ℤ) * st₁.distances.fn (district, community) := by
    simp only [undeployApplied, addDistanceCost_distanceCost, setMaps_distanceCost,
      setMaps_distances, adjustDistrict_distanceCost, adjustDistrict_distances,
      allocAdd_distanceCost, allocAdd_distances, touchAlloc_distanceCost,
      touchAlloc_distances]
  refine ⟨hf, ?_, ?_, ?_, ?_⟩
  · intro c' d'
    rw [hdep2, hUdep, h1deps]
    by_cases hcc' : c' = community
    · subst hcc'
      rw [Dict.set_fn_same, hfnset]
      by_cases hdd : d' = district
      · subst hdd
        rw [CommDeploys.getd_addCell_same, CommDeploys.getd_touch,
          CommDeploys.getd_addCell_same]
        ring
      · rw [CommDeploys.getd_addCell_ne _ _ hdd, CommDeploys.getd_touch,
          CommDeploys.getd_addCell_ne _ _ hdd]
    · rw [Dict.set_fn_ne _ _ hcc', Dict.set_fn_ne _ _ hcc', Dict.set_fn_ne _ _ hcc']
  · intro c'
    rw [hdep2, hUdep, h1deps]
    by_cases hcc' : c' = community
    · subst hcc'
      rw [Dict.set_fn_same, hfnset]
      rw [CommDeploys.addCell_total, CommDeploys.touch_total, CommDeploys.addCell_total]
      ring
    · rw [Dict.set_fn_ne _ _ hcc', Dict.set_fn_ne _ _ hcc', Dict.set_fn_ne _ _ hcc']
  · intro d'
    rw [hpd2, hUpd, adjustDistrict_policeDistricts, touchAlloc_policeDistricts, h1pd,
      adjustDistrict_policeDistricts]
    by_cases hdd : d' = district
    · rw [hdd, Dict.set_fn_same, Dict.set_fn_same]
      cases hx : st.policeDistricts.fn district
      simp [DistrictInfo.mk.injEq]
    · rw [Dict.set_fn_ne _ _ hdd, Dict.set_fn_ne _ _ hdd]
  · rw [hcost2, hUcost, h1cost, h1dist]
    push_cast
    ring



/-- Witness for `C6_assign_unassign_roundtrip` on `cSt8`: assigning one
patrol to community 1 from district 1 and unassigning it restores the
touched cell and the distance cost. -/
theorem C6_assign_unassign_roundtrip_witness :
    ((undeployPatrols cdfHalf ((deployPatrols cdfHalf cSt8 1 1 1).state) 1 1 1).state.deployments.fn
        1).getd 1 = (cSt8.deployments.fn 1).getd 1 ∧
    (undeployPatrols cdfHalf ((deployPatrols cdfHalf cSt8 1 1 1).state) 1 1 1).state.distanceCost
      = cSt8.distanceCost := by
  have h := Res.eq_ok_of_isOk cSt8_deploy_isOk
  have hm := C6_assign_unassign_roundtrip (by decide) h
  exact ⟨hm.2.1 1 1, hm.2.2.2.2⟩



/-- Adding `p` to one cell shifts the weighted cell sum by `p` times the
weight of that cell. -/
theorem cell_sum_addCell (cd : CommDeploys) (hnd : cd.keys.Nodup) (district p : ℤ)
    (w : ℤ → ℚ) :
    ((cd.addCell district p).keys.map
      (fun d => (((cd.addCell district p).cell d : ℤ) : ℚ) * w d)).sum
      = (cd.keys.map (fun d => ((cd.cell d : ℤ) : ℚ) * w d)).sum + (p : ℚ) * w district := by
  unfold CommDeploys.addCell CommDeploys.getd
  by_cases h : district ∈ cd.keys
  · simp only [if_pos h]
    rw [sum_map_update_of_nodup cd.keys hnd h
      (fun d => ((cd.cell d : ℤ) : ℚ) * w d)
      (fun d => ((Function.update cd.cell district (cd.cell district + p) d : ℤ) : ℚ) * w d)
      (fun x hx hxd => by simp only [Function.update_noteq hxd])]
    simp only [Function.update_same]
    push_cast
    ring
  · simp only [if_neg h]
    rw [List.map_append, List.sum_append]
    have h1 : (cd.keys.map
        (fun d => ((Function.update cd.cell district (0 + p) d : ℤ) : ℚ) * w d)).sum
        = (cd.keys.map (fun d => ((cd.cell d : ℤ) : ℚ) * w d)).sum := by
      apply sum_map_congr
      intro x hx
      have hxd : x ≠ district := by
        rintro rfl
        exact h hx
      simp only [Function.update_noteq hxd]
    rw [h1]
    simp only [List.map_cons, List.map_nil, List.sum_cons, List.sum_nil,
      Function.update_same]
    push_cast
    ring

/-- The `defaultdict` key insertion of a guard read leaves the weighted
cell sum unchanged. -/
theorem cell_sum_touch (cd : CommDeploys) (district : ℤ) (w : ℤ → ℚ) :
    ((cd.touch district).keys.map
      (fun d => (((cd.touch district).cell d : ℤ) : ℚ) * w d)).sum
      = (cd.keys.map (fun d => ((cd.cell d : ℤ) : ℚ) * w d)).sum := by
  unfold CommDeploys.touch
  by_cases h : district ∈ cd.keys
  · simp only [if_pos h]
  · simp only [if_neg h]
    rw [List.map_append, List.sum_append]
    have h1 : (cd.keys.map
        (fun d => ((Function.update cd.cell district 0 d : ℤ) : ℚ) * w d)).sum
        = (cd.keys.map (fun d => ((cd.cell d : ℤ) : ℚ) * w d)).sum := by
      apply sum_map_congr
      intro x hx
      have hxd : x ≠ district := by
        rintro rfl
        exact h hx
      simp only [Function.update_noteq hxd]
    rw [h1]
    simp [Function.update_same]



/-- A successful `assign` moves both the running distance cost and the
from-scratch distance cost by exactly `patrols * distance(d,c)`, and
preserves well-formedness of the matrix key lists. -/
theorem deploy_scratch_step {cdf : ℚ → ℤ → ℚ} {st : St} {district community patrols : ℤ}
    {st' : St} (hwf : WFdeps st)
    (h : deployPatrols cdf st district community patrols = .ok st') :
    WFdeps st' ∧ st'.distances = st.distances ∧
    scratchDistanceCost st' = scratchDistanceCost st
      + (patrols : ℚ) * st.distances.fn (district, community) ∧
    st'.distanceCost = st.distanceCost
      + (patrols : ℚ) * st.distances.fn (district, community) := by
  obtain ⟨hl, hd, hcap, hc, hcm, hcc, hdist, tcov, tdf, htcov, htdf, hst'⟩ :=
    deployPatrols_ok_inv h
  obtain ⟨hnd, hinner⟩ := hwf
  have hdeps : st'.deployments = st.deployments.set community
      ((st.deployments.fn community).addCell district patrols) := by rw [hst']; rfl
  have hdst : st'.distances = st.distances := by rw [hst']; rfl
  have hcost : st'.distanceCost = st.distanceCost
      + (patrols : ℚ) * st.distances.fn (district, community) := by rw [hst']; rfl
  refine ⟨⟨?_, ?_⟩, hdst, ?_, hcost⟩
  · rw [hdeps, Dict.set_keys_of_mem _ hc]; exact hnd
  · intro c hcm'
    rw [hdeps] at hcm' ⊢
    rw [Dict.set_keys_of_mem _ hc] at hcm'
    by_cases hceq : c = community
    · subst hceq
      rw [Dict.set_fn_same]
      exact CommDeploys.addCell_keys_nodup (hinner c hcm')
    · rw [Dict.set_fn_ne _ _ hceq]
      exact hinner c hcm'
  · unfold scratchDistanceCost
    rw [hdeps, hdst, Dict.set_keys_of_mem _ hc]
    rw [sum_map_update_of_nodup st.deployments.keys hnd hc
      (fun c => ((st.deployments.fn c).keys.map
        (fun d => (((st.deployments.fn c).cell d : ℤ) : ℚ) * st.distances.fn (d, c))).sum)
      (fun c => (((st.deployments.set community
          ((st.deployments.fn community).addCell district patrols)).fn c).keys.map
        (fun d => ((((st.deployments.set community
          ((st.deployments.fn community).addCell district patrols)).fn c).cell d : ℤ) : ℚ)
          * st.distances.fn (d, c))).sum)
      (fun x hx hxc => by simp only [Dict.set_fn_ne _ _ hxc])]
    rw [Dict.set_fn_same]
    rw [cell_sum_addCell _ (hinner community hc) district patrols
      (fun d => st.distances.fn (d, community))]
    ring

/-- A successful `unassign` moves both distance-cost figures by exactly
`-patrols * distance(d,c)` and preserves well-formedness. -/
theorem undeploy_scratch_step {cdf : ℚ → ℤ → ℚ} {st : St} {district community patrols : ℤ}
    {st' : St} (hwf : WFdeps st)
    (h : undeployPatrols cdf st district community patrols = .ok st') :
    WFdeps st' ∧ st'.distances = st.distances ∧
    scratchDistanceCost st' = scratchDistanceCost st
      + (-patrols : ℤ) * st.distances.fn (district, community) ∧
    st'.distanceCost = st.distanceCost
      + (-patrols : ℤ) * st.distances.fn (district, community) := by
  obtain ⟨hl, hc, hguard, hd, hcm, hcc, hdist, tcov, tdf, htcov, htdf, hst'⟩ :=
    undeployPatrols_ok_inv h
  obtain ⟨hnd, hinner⟩ := hwf
  have hdeps : st'.deployments = (st.deployments.set community
      ((st.deployments.fn community).touch district)).set community
      (((st.deployments.fn community).touch district).addCell district (-patrols)) := by
    rw [hst']
    show (undeployApplied st district community patrols).deployments = _
    simp only [undeployApplied, addDistanceCost_deployments, setMaps_deployments,
      adjustDistrict_deployments, allocAdd_deployments, touchAlloc_deployments,
      Dict.set_fn_same]
  have hdst : st'.distances = st.distances := by rw [hst']; rfl
  have hcost : st'.distanceCost = st.distanceCost
      + (-patrols : ℤ) * st.distances.fn (district, community) := by
    rw [hst']
    show (undeployApplied st district community patrols).distanceCost = _
    simp only [undeployApplied, addDistanceCost_distanceCost, setMaps_distanceCost,
      setMaps_distances, adjustDistrict_distanceCost, adjustDistrict_distances,
      allocAdd_distanceCost, allocAdd_distances, touchAlloc_distanceCost,
      touchAlloc_distances]
  have hkeys : ((st.deployments.set community
      ((st.deployments.fn community).touch district)).set community
      (((st.deployments.fn community).touch district).addCell district (-patrols))).keys
      = st.deployments.keys := by
    rw [Dict.set_keys_of_mem _ (Dict.mem_set_keys.mpr (Or.inl hc)),
      Dict.set_keys_of_mem _ hc]
  have hfn_comm : ((st.deployments.set community
      ((st.deployments.fn community).touch district)).set community
      (((st.deployments.fn community).touch district).addCell district (-patrols))).fn
      community = ((st.deployments.fn community).touch district).addCell district
      (-patrols) := Dict.set_fn_same _ _ _
  have hfn_ne : ∀ x, x ≠ community → ((st.deployments.set community
      ((st.deployments.fn community).touch district)).set community
      (((st.deployments.fn community).touch district).addCell district (-patrols))).fn x
      = st.deployments.fn x := by
    intro x hx
    rw [Dict.set_fn_ne _ _ hx, Dict.set_fn_ne _ _ hx]
  refine ⟨⟨?_, ?_⟩, hdst, ?_, hcost⟩
  · rw [hdeps, hkeys]; exact hnd
  · intro c hcm'
    rw [hdeps] at hcm' ⊢
    rw [hkeys] at hcm'
    by_cases hceq : c = community
    · subst hceq
      rw [hfn_comm]
      exact CommDeploys.addCell_keys_nodup
        (CommDeploys.touch_keys_nodup (hinner c hcm'))
    · rw [hfn_ne c hceq]
      exact hinner c hcm'
  · unfold scratchDistanceCost
    rw [hdeps, hdst, hkeys]
    rw [sum_map_update_of_nodup st.deployments.keys hnd hc
      (fun c => ((st.deployments.fn c).keys.map
        (fun d => (((st.deployments.fn c).cell d : ℤ) : ℚ) * st.distances.fn (d, c))).sum)
      (fun c => ((((st.deployments.set community
          ((st.deployments.fn community).touch district)).set community
          (((st.deployments.fn community).touch district).addCell district
            (-patrols))).fn c).keys.map
        (fun d => ((((st.deployments.set community
          ((st.deployments.fn community).touch district)).set community
          (((st.deployments.fn community).touch district).addCell district
            (-patrols))).fn c).cell d : ℤ) * st.distances.fn (d, c))).sum)
      (fun x hx hxc => by simp only [hfn_ne x hxc])]
    rw [hfn_comm]
    rw [cell_sum_addCell _ (CommDeploys.touch_keys_nodup (hinner community hc)) district
      (-patrols) (fun d => st.distances.fn (d, community))]
    rw [cell_sum_touch _ district (fun d => st.distances.fn (d, community))]
    push_cast
    ring



/-- Claim C4: starting from any well-formed state whose running distance
cost agrees with the from-scratch sum (as holds right after a load), every
sequence of successful assign/unassign edits keeps the incrementally
maintained cost equal to the cost recomputed from scratch over the
resulting matrix — exactly, hence within the claimed 1e-9 tolerance
(Python floats are modelled as exact rationals). -/
theorem C4_incremental_vs_scratch_cost (cdf : ℚ → ℤ → ℚ) (es : List Edit) (st st' : St)
    (hwf : WFdeps st) (hagree : st.distanceCost = scratchDistanceCost st)
    (happ : applyEdits cdf st es = some st') :
    st'.distanceCost = scratchDistanceCost st' ∧
    |st'.distanceCost - scratchDistanceCost st'| ≤ 1 / 1000000000 := by
  suffices hmain : ∀ (es : List Edit) (st : St), WFdeps st →
      st.distanceCost = scratchDistanceCost st → applyEdits cdf st es = some st' →
      st'.distanceCost = scratchDistanceCost st' by
    have h := hmain es st hwf hagree happ
    rw [h, sub_self, abs_zero]
    norm_num
  intro es
  induction es with
  | nil =>
    intro st hwf hagree happ
    simp only [applyEdits, Option.some.injEq] at happ
    rw [← happ]
    exact hagree
  | cons e es ih =>
    intro st hwf hagree happ
    unfold applyEdits at happ
    cases hre : applyEdit cdf st e with
    | ok st₁ =>
      rw [hre] at happ
      cases e with
      | assign district community patrols =>
        simp only [applyEdit] at hre
        obtain ⟨hwf₁, -, hscr, hcost⟩ := deploy_scratch_step hwf hre
        exact ih st₁ hwf₁ (by rw [hcost, hscr, hagree]) happ
      | unassign district community patrols =>
        simp only [applyEdit] at hre
        obtain ⟨hwf₁, -, hscr, hcost⟩ := undeploy_scratch_step hwf hre
        exact ih st₁ hwf₁ (by rw [hcost, hscr, hagree]) happ
    | failed st₁ =>
      rw [hre] at happ
      simp at happ
    | raised e' st₁ =>
      rw [hre] at happ
      simp at happ

instance (st : St) : Decidable (WFdeps st) :=
  inferInstanceAs (Decidable (st.deployments.keys.Nodup ∧
    ∀ c ∈ st.deployments.keys, (st.deployments.fn c).keys.Nodup))

/-- The concrete edit sequence of the C4 witness. -/
def c4edits : List Edit := [.assign 1 1 1, .unassign 1 1 1]

/-- Both edits of `c4edits` succeed on `cSt8`. -/
theorem c4edits_isSome : (applyEdits cdfHalf cSt8 c4edits).isSome = true := by
  norm_num [applyEdits, applyEdit, c4edits, deployPatrols, undeployPatrols, cSt8,
    Dict.getE, Dict.set, allocAdd, adjustDistrict, setMaps, addDistanceCost,
    CommDeploys.addCell, CommDeploys.getd, CommDeploys.touch, CommDeploys.empty,
    commCoverage, computeTotalCoverage, computeTotals, calculateFairnessTStat,
    fairnessCounts, fairnessVarSums, fairnessFromT, cdfHalf, ratSqrt, isqrt, isqrtGo,
    bucket1, n_crimes_per_patrol, List.foldlM, Function.update]

/-- The start state of the C4 witness satisfies the agreement hypothesis. -/
theorem cSt8_cost_agrees : cSt8.distanceCost = scratchDistanceCost cSt8 := by
  norm_num [scratchDistanceCost, cSt8]

/-- Witness for `C4_incremental_vs_scratch_cost`: the assign/unassign pair
of `c4edits` on `cSt8`. -/
theorem C4_incremental_vs_scratch_cost_witness :
    ((applyEdits cdfHalf cSt8 c4edits).get c4edits_isSome).distanceCost
      = scratchDistanceCost ((applyEdits cdfHalf cSt8 c4edits).get c4edits_isSome) ∧
    |((applyEdits cdfHalf cSt8 c4edits).get c4edits_isSome).distanceCost
      - scratchDistanceCost ((applyEdits cdfHalf cSt8 c4edits).get c4edits_isSome)|
      ≤ 1 / 1000000000 :=
  C4_incremental_vs_scratch_cost cdfHalf c4edits cSt8 _ (by decide) cSt8_cost_agrees
    (Option.some_get c4edits_isSome).symm



instance (st : St) : Decidable (InvSt st) :=
  inferInstanceAs (Decidable (_ ∧ ∀ d ∈ st.policeDistricts.keys, _ ∧ _))

/-- Updating one community's row by `addCell district p` shifts the column
sum of `district` by `p` and leaves other columns unchanged. -/
theorem sumAllocD_set_addCell (deps : Dict ℤ CommDeploys) (hnd : deps.keys.Nodup)
    {community : ℤ} (hc : community ∈ deps.keys) (district p d' : ℤ) :
    sumAllocD (deps.set community ((deps.fn community).addCell district p)) d'
      = sumAllocD deps d' + (if d' = district then p else 0) := by
  unfold sumAllocD
  rw [Dict.set_keys_of_mem _ hc]
  rw [sum_map_update_of_nodup deps.keys hnd hc
    (fun c => (deps.fn c).getd d')
    (fun c => ((deps.set community ((deps.fn community).addCell district p)).fn c).getd d')
    (fun x hx hxc => by simp only [Dict.set_fn_ne _ _ hxc])]
  rw [Dict.set_fn_same]
  by_cases hdd : d' = district
  · subst hdd
    rw [CommDeploys.getd_addCell_same, if_pos rfl]
    ring
  · rw [CommDeploys.getd_addCell_ne _ _ hdd, if_neg hdd]
    ring

/-- The key insertion of a guard read never changes a column sum. -/
theorem sumAllocD_set_touch (deps : Dict ℤ CommDeploys) (hnd : deps.keys.Nodup)
    {community : ℤ} (hc : community ∈ deps.keys) (district d' : ℤ) :
    sumAllocD (deps.set community ((deps.fn community).touch district)) d'
      = sumAllocD deps d' := by
  unfold sumAllocD
  rw [Dict.set_keys_of_mem _ hc]
  rw [sum_map_update_of_nodup deps.keys hnd hc
    (fun c => (deps.fn c).getd d')
    (fun c => ((deps.set community ((deps.fn community).touch district)).fn c).getd d')
    (fun x hx hxc => by simp only [Dict.set_fn_ne _ _ hxc])]
  rw [Dict.set_fn_same, CommDeploys.getd_touch]
  ring

/-- Inserting a fresh community with an empty row leaves column sums
unchanged. -/
theorem sumAllocD_set_new_empty (deps : Dict ℤ CommDeploys) {c : ℤ}
    (hc : c ∉ deps.keys) (d' : ℤ) :
    sumAllocD (deps.set c CommDeploys.empty) d' = sumAllocD deps d' := by
  unfold sumAllocD Dict.set
  rw [if_neg hc, List.map_append, List.sum_append]
  have h1 : (deps.keys.map
      (fun x => ((Function.update deps.fn c CommDeploys.empty x).getd d'))).sum
      = (deps.keys.map (fun x => (deps.fn x).getd d')).sum := by
    apply sum_map_congr
    intro x hx
    have hxc : x ≠ c := by rintro rfl; exact hc hx
    simp only [Function.update_noteq hxc]
  rw [h1]
  simp [Function.update_same, CommDeploys.getd_empty]

/-- All-empty rows give zero column sums. -/
theorem sumAllocD_zero (deps : Dict ℤ CommDeploys)
    (h : ∀ c ∈ deps.keys, deps.fn c = CommDeploys.empty) (d' : ℤ) :
    sumAllocD deps d' = 0 := by
  unfold sumAllocD
  apply List.sum_eq_zero
  intro x hx
  obtain ⟨c, hc, rfl⟩ := List.mem_map.mp hx
  rw [h c hc, CommDeploys.getd_empty]

/-- The district-counter update paired with every cell edit, as a dict
operation (`adjustDistrict` on the `policeDistricts` field). -/
def adjustPd (pd : Dict ℤ DistrictInfo) (district p : ℤ) : Dict ℤ DistrictInfo :=
  pd.set district
    { pd.fn district with
      available_patrols := (pd.fn district).available_patrols - p,
      deployed_patrols := (pd.fn district).deployed_patrols + p }

theorem adjustDistrict_policeDistricts_eq (st : St) (district p : ℤ) :
    (adjustDistrict st district p).policeDistricts = adjustPd st.policeDistricts district p :=
  rfl

/-- The counter invariant of one state, phrased over the two dicts. -/
def CounterInv (pd : Dict ℤ DistrictInfo) (deps : Dict ℤ CommDeploys) : Prop :=
  ∀ d ∈ pd.keys,
    (pd.fn d).available_patrols + (pd.fn d).deployed_patrols = (pd.fn d).total_patrols ∧
    (pd.fn d).deployed_patrols = sumAllocD deps d

/-- The shared counter-update step: applying `p` patrols to cell
`(community, district)` together with the matching district-counter update
preserves the counter invariant. -/
theorem inv_counter_step (deps : Dict ℤ CommDeploys) (pd : Dict ℤ DistrictInfo)
    (hnd : deps.keys.Nodup) {community district : ℤ} (hc : community ∈ deps.keys)
    (hd : district ∈ pd.keys) (p : ℤ) (hinv : CounterInv pd deps) :
    CounterInv (adjustPd pd district p)
      (deps.set community ((deps.fn community).addCell district p)) := by
  intro d hdm
  rw [adjustPd, Dict.set_keys_of_mem _ hd] at hdm
  by_cases hdd : d = district
  · subst hdd
    rw [adjustPd, Dict.set_fn_same]
    obtain ⟨h1, h2⟩ := hinv d hdm
    constructor
    · simp only []
      omega
    · simp only []
      rw [sumAllocD_set_addCell deps hnd hc, if_pos rfl]
      omega
  · rw [adjustPd, Dict.set_fn_ne _ _ hdd]
    obtain ⟨h1, h2⟩ := hinv d hdm
    refine ⟨h1, ?_⟩
    rw [sumAllocD_set_addCell deps hnd hc, if_neg hdd]
    omega

theorem histStep_ok_inv {communities : Dict ℤ CommInfo} {crimecounts : Dict ℤ CrimeCount}
    {distances : Dict (ℤ × ℤ) ℚ} {a : HistAcc} {r : DeployRow} {a' : HistAcc}
    (h : histStep communities crimecounts distances a r = .ok a') :
    r.community ∈ a.deployments.keys ∧ r.district ∈ a.policeDistricts.keys ∧
    a'.deployments = a.deployments.set r.community
      ((a.deployments.fn r.community).addCell r.district r.patrols) ∧
    a'.policeDistricts = adjustPd a.policeDistricts r.district r.patrols := by
  simp only [histStep, bind, Except.bind] at h
  split at h
  · simp at h
  next cd hcd =>
    obtain ⟨hcmem, hcfn⟩ := Dict.getE_ok_iff.mp hcd
    split at h
    · simp at h
    next di hdi =>
      obtain ⟨hdmem, hdfn⟩ := Dict.getE_ok_iff.mp hdi
      split at h
      · simp at h
      next ci hci =>
        split at h
        · simp at h
        next cc hcc =>
          split at h
          · simp at h
          next dlt hdl =>
            simp only [pureOk, Except.ok.injEq] at h
            refine ⟨hcmem, hdmem, ?_, ?_⟩
            · rw [← h, hcfn]
            · subst hdfn
              rw [← h]
              rfl

theorem loadDeployments0_spec (dbC : List CommunityRow) :
    (loadDeployments0 dbC).keys.Nodup ∧
    ∀ c ∈ (loadDeployments0 dbC).keys, (loadDeployments0 dbC).fn c = CommDeploys.empty := by
  unfold loadDeployments0
  apply foldl_invariant
    (P := fun m : Dict ℤ CommDeploys =>
      m.keys.Nodup ∧ ∀ c ∈ m.keys, m.fn c = CommDeploys.empty)
  · rintro t rrow hmem ⟨ht1, ht2⟩
    refine ⟨Dict.set_nodup ht1, ?_⟩
    intro c hcm
    by_cases hcr : c = rrow.id
    · subst hcr; exact Dict.set_fn_same _ _ _
    · rw [Dict.set_fn_ne _ _ hcr]
      exact ht2 c ((Dict.mem_set_keys.mp hcm).resolve_right hcr)
  · exact ⟨List.nodup_nil, by simp [Dict.empty]⟩

theorem loadDistricts0_spec (dbD : List DistrictRow) :
    ∀ d ∈ (loadDistricts0 dbD).keys,
      ((loadDistricts0 dbD).fn d).available_patrols
        + ((loadDistricts0 dbD).fn d).deployed_patrols
        = ((loadDistricts0 dbD).fn d).total_patrols ∧
      ((loadDistricts0 dbD).fn d).deployed_patrols = 0 := by
  unfold loadDistricts0
  apply foldl_invariant
    (P := fun m : Dict ℤ DistrictInfo => ∀ d ∈ m.keys,
      (m.fn d).available_patrols + (m.fn d).deployed_patrols = (m.fn d).total_patrols ∧
      (m.fn d).deployed_patrols = 0)
  · intro t rrow hmem ht d hdm
    by_cases hdr : d = rrow.id
    · subst hdr
      rw [Dict.set_fn_same]
      exact ⟨by simp, rfl⟩
    · rw [Dict.set_fn_ne _ _ hdr]
      exact ht d ((Dict.mem_set_keys.mp hdm).resolve_right hdr)
  · intro d hdm
    simp [Dict.empty] at hdm

/-- After a historical-records fold starting from the zeroed dicts, the
counter invariant holds. -/
theorem histFold_inv {communities : Dict ℤ CommInfo} {crimecounts : Dict ℤ CrimeCount}
    {distances : Dict (ℤ × ℤ) ℚ} {dbC : List CommunityRow} {dbD : List DistrictRow}
    {dbDep : List DeployRow} {mc0 : Dict ℤ ℚ} {md0 : Dict ℤ ℤ} {acc : HistAcc}
    (h : dbDep.foldlM (histStep communities crimecounts distances)
      ⟨loadDeployments0 dbC, loadDistricts0 dbD, mc0, md0, 0⟩ = .ok acc) :
    acc.deployments.keys.Nodup ∧ CounterInv acc.policeDistricts acc.deployments := by
  apply foldlM_ok_invariant
    (P := fun a : HistAcc => a.deployments.keys.Nodup ∧ CounterInv a.policeDistricts
      a.deployments)
    (f := histStep communities crimecounts distances) (l := dbDep)
    (s := ⟨loadDeployments0 dbC, loadDistricts0 dbD, mc0, md0, 0⟩)
  · rintro t r t' hr ⟨ht1, ht2⟩ hstep
    obtain ⟨hcmem, hdmem, hdeps, hpd⟩ := histStep_ok_inv hstep
    refine ⟨?_, ?_⟩
    · rw [hdeps, Dict.set_keys_of_mem _ hcmem]; exact ht1
    · rw [hdeps, hpd]
      exact inv_counter_step _ _ ht1 hcmem hdmem _ ht2
  · refine ⟨(loadDeployments0_spec dbC).1, ?_⟩
    intro d hdm
    obtain ⟨h1, h2⟩ := loadDistricts0_spec dbD d hdm
    refine ⟨h1, ?_⟩
    rw [h2, sumAllocD_zero _ (loadDeployments0_spec dbC).2]
  · exact h



/-- Successful session loading establishes the district-counter invariant. -/
theorem loadDeploymentPlan_inv {cdf : ℚ → ℤ → ℚ} {dbC : List CommunityRow}
    {dbDist : List DistanceRow} {preds : List PredRow} {dbD : List DistrictRow}
    {dbDep : List DeployRow} {st : St}
    (h : loadDeploymentPlan cdf dbC dbDist preds dbD dbDep = .ok st) : InvSt st := by
  simp only [loadDeploymentPlan, bind, Except.bind] at h
  split at h
  · simp at h
  next p hp =>
    obtain ⟨cc, mc⟩ := p
    split at h
    · simp at h
    next acc hacc =>
      split at h
      · simp at h
      next tcov htcov =>
        split at h
        · simp at h
        next tdf htdf =>
          simp only [pureOk, Except.ok.injEq] at h
          obtain ⟨hnd, hcinv⟩ := histFold_inv hacc
          rw [← h]
          exact ⟨hnd, hcinv⟩

/-- A guard-read key insertion never disturbs the counter invariant. -/
theorem counterInv_touch {pd : Dict ℤ DistrictInfo} {deps : Dict ℤ CommDeploys}
    (hnd : deps.keys.Nodup) {c d : ℤ} (hc : c ∈ deps.keys)
    (h : CounterInv pd deps) : CounterInv pd (deps.set c ((deps.fn c).touch d)) := by
  intro d0 hd0
  obtain ⟨h1, h2⟩ := h d0 hd0
  refine ⟨h1, ?_⟩
  rw [sumAllocD_set_touch deps hnd hc]
  exact h2

/-- A successful assign preserves the district-counter invariant. -/
theorem deployPatrols_preserves_inv {cdf : ℚ → ℤ → ℚ} {st : St}
    {district community patrols : ℤ} {st' : St} (hinv : InvSt st)
    (h : deployPatrols cdf st district community patrols = .ok st') : InvSt st' := by
  obtain ⟨hl, hdmem, hcap, hcmem, hc2, hc3, hc4, tcov, tdf, hA, hB, hst⟩ :=
    deployPatrols_ok_inv h
  subst hst
  refine ⟨?_, ?_⟩
  · show (st.deployments.set community
      ((st.deployments.fn community).addCell district patrols)).keys.Nodup
    rw [Dict.set_keys_of_mem _ hcmem]
    exact hinv.1
  · show CounterInv (adjustPd st.policeDistricts district patrols)
      (st.deployments.set community ((st.deployments.fn community).addCell district patrols))
    exact inv_counter_step _ _ hinv.1 hcmem hdmem _ hinv.2

/-- A successful unassign preserves the district-counter invariant. -/
theorem undeployPatrols_preserves_inv {cdf : ℚ → ℤ → ℚ} {st : St}
    {district community patrols : ℤ} {st' : St} (hinv : InvSt st)
    (h : undeployPatrols cdf st district community patrols = .ok st') : InvSt st' := by
  obtain ⟨hl, hcmem, hguard, hdmem, hc2, hc3, hc4, tcov, tdf, hA, hB, hst⟩ :=
    undeployPatrols_ok_inv h
  subst hst
  have hnd1 : (st.deployments.set community
      ((st.deployments.fn community).touch district)).keys.Nodup := by
    rw [Dict.set_keys_of_mem _ hcmem]
    exact hinv.1
  have hcm1 : community ∈ (st.deployments.set community
      ((st.deployments.fn community).touch district)).keys := by
    rw [Dict.set_keys_of_mem _ hcmem]
    exact hcmem
  refine ⟨?_, ?_⟩
  · show ((st.deployments.set community ((st.deployments.fn community).touch district)).set
      community (((st.deployments.set community
        ((st.deployments.fn community).touch district)).fn community).addCell district
          (-patrols))).keys.Nodup
    rw [Dict.set_keys_of_mem _ hcm1]
    exact hnd1
  · show CounterInv (adjustPd st.policeDistricts district (-patrols))
      ((st.deployments.set community ((st.deployments.fn community).touch district)).set
        community (((st.deployments.set community
          ((st.deployments.fn community).touch district)).fn community).addCell district
            (-patrols)))
    exact inv_counter_step _ _ hnd1 hcm1 hdmem _ (counterInv_touch hinv.1 hcmem hinv.2)



/-- Inversion of one solution-ingestion step. -/
theorem ingestStep_ok_inv {readVar : ℤ → ℤ → Except PyErr ℤ} {c : ℤ} {s : St} {d : ℤ}
    {s' : St} (h : ingestStep readVar c s d = .ok s') :
    ∃ n, readVar c d = .ok n ∧
      s' = addDistanceCost (setMaps (adjustDistrict (allocAdd s c d n) d n) c) d c n := by
  simp only [ingestStep, bind, Except.bind] at h
  cases hr : readVar c d with
  | error e => rw [hr, liftStErr] at h; simp at h
  | ok n =>
    simp only [hr, liftStOk] at h
    refine ⟨n, rfl, ?_⟩
    cases hg : (adjustDistrict (allocAdd s c d n) d n).crimecounts.getE
        ((adjustDistrict (allocAdd s c d n) d n).communities.fn c).code with
    | error e => simp only [hg, liftStErr] at h; simp at h
    | ok cc =>
      simp only [hg, liftStOk] at h
      cases hd2 : (setMaps (adjustDistrict (allocAdd s c d n) d n) c).distances.getE (d, c) with
      | error e => simp only [hd2, liftStErr] at h; simp at h
      | ok dlt =>
        simp only [hd2, liftStOk] at h
        simp only [pureOk, Except.ok.injEq] at h
        exact h.symm

/-- The field content of one successful ingestion step. -/
theorem ingestStep_fields {readVar : ℤ → ℤ → Except PyErr ℤ} {c : ℤ} {s : St} {d : ℤ}
    {s' : St} (h : ingestStep readVar c s d = .ok s') :
    ∃ n, s'.deployments = s.deployments.set c ((s.deployments.fn c).addCell d n) ∧
      s'.policeDistricts = adjustPd s.policeDistricts d n ∧
      s'.communities = s.communities := by
  obtain ⟨n, hr, hs⟩ := ingestStep_ok_inv h
  subst hs
  exact ⟨n, rfl, rfl, rfl⟩

/-- The per-community inner ingestion fold: key lists and the counter
invariant are preserved, the processed districts appear as keys of the
community's row, other rows are untouched. -/
theorem ingest_inner_inv {readVar : ℤ → ℤ → Except PyErr ℤ} {c : ℤ} {K : List ℤ}
    (ds : List ℤ) :
    ∀ (s s' : St),
      s.policeDistricts.keys = K →
      s.deployments.keys.Nodup →
      c ∈ s.deployments.keys →
      (∀ d ∈ ds, d ∈ K) →
      CounterInv s.policeDistricts s.deployments →
      ds.foldlM (ingestStep readVar c) s = .ok s' →
      s'.policeDistricts.keys = K ∧ s'.deployments.keys = s.deployments.keys ∧
      CounterInv s'.policeDistricts s'.deployments ∧
      (∀ d ∈ ds, d ∈ (s'.deployments.fn c).keys) ∧
      (∀ d, d ∈ (s.deployments.fn c).keys → d ∈ (s'.deployments.fn c).keys) ∧
      (∀ c0, c0 ≠ c → s'.deployments.fn c0 = s.deployments.fn c0) ∧
      s'.communities = s.communities := by
  induction ds with
  | nil =>
    intro s s' hK hnd hc hds hinv h
    simp only [List.foldlM, pureOk, Except.ok.injEq] at h
    subst h
    exact ⟨hK, rfl, hinv, by simp, fun d hd => hd, fun c0 _ => rfl, rfl⟩
  | cons d ds ih =>
    intro s s' hK hnd hc hds hinv h
    obtain ⟨t, hstep, hrest⟩ := foldlM_cons_ok _ _ _ _ _ h
    obtain ⟨n, hdep, hpd, hcm⟩ := ingestStep_fields hstep
    have hdK : d ∈ K := hds d (List.mem_cons_self d ds)
    have hdm : d ∈ s.policeDistricts.keys := by rw [hK]; exact hdK
    have htK : t.policeDistricts.keys = K := by
      rw [hpd]
      unfold adjustPd
      rw [Dict.set_keys_of_mem _ hdm]
      exact hK
    have htndk : t.deployments.keys = s.deployments.keys := by
      rw [hdep, Dict.set_keys_of_mem _ hc]
    have htnd : t.deployments.keys.Nodup := htndk ▸ hnd
    have htc : c ∈ t.deployments.keys := htndk ▸ hc
    have htinv : CounterInv t.policeDistricts t.deployments := by
      rw [hdep, hpd]
      exact inv_counter_step _ _ hnd hc hdm _ hinv
    obtain ⟨iK, ikeys, iinv, icov, imono, iother, icomm⟩ :=
      ih t s' htK htnd htc (fun d0 hd0 => hds d0 (List.mem_cons_of_mem _ hd0)) htinv hrest
    refine ⟨iK, by rw [ikeys, htndk], iinv, ?_, ?_, ?_, by rw [icomm, hcm]⟩
    · intro d0 hd0
      rcases List.mem_cons.mp hd0 with hd0 | hd0
      · subst hd0
        apply imono
        rw [hdep, Dict.set_fn_same]
        exact CommDeploys.mem_addCell_keys.mpr (Or.inr rfl)
      · exact icov d0 hd0
    · intro d0 hd0
      apply imono
      rw [hdep, Dict.set_fn_same]
      exact CommDeploys.mem_addCell_keys.mpr (Or.inl hd0)
    · intro c0 hc0
      rw [iother c0 hc0, hdep, Dict.set_fn_ne _ _ hc0]

/-- One community of the ingestion loop: its fresh row is created and then
filled with one key per police district. -/
theorem ingestComm_inv {readVar : ℤ → ℤ → Except PyErr ℤ} {K : List ℤ} {s s' : St} {c : ℤ}
    (hK : s.policeDistricts.keys = K)
    (hnd : s.deployments.keys.Nodup)
    (hcnew : c ∉ s.deployments.keys)
    (hinv : CounterInv s.policeDistricts s.deployments)
    (h : ingestComm readVar s c = .ok s') :
    s'.policeDistricts.keys = K ∧ s'.deployments.keys = s.deployments.keys ++ [c] ∧
    CounterInv s'.policeDistricts s'.deployments ∧
    (∀ d ∈ K, d ∈ (s'.deployments.fn c).keys) ∧
    (∀ c0, c0 ≠ c → s'.deployments.fn c0 = s.deployments.fn c0) ∧
    s'.communities = s.communities := by
  simp only [ingestComm] at h
  have hkeys0 : (s.deployments.set c CommDeploys.empty).keys = s.deployments.keys ++ [c] := by
    unfold Dict.set
    rw [if_neg hcnew]
  have hinv0 : CounterInv s.policeDistricts (s.deployments.set c CommDeploys.empty) := by
    intro d0 hd0
    obtain ⟨h1, h2⟩ := hinv d0 hd0
    refine ⟨h1, ?_⟩
    rw [sumAllocD_set_new_empty _ hcnew]
    exact h2
  obtain ⟨iK, ikeys, iinv, icov, imono, iother, icomm⟩ :=
    ingest_inner_inv s.policeDistricts.keys
      { s with deployments := s.deployments.set c CommDeploys.empty } s'
      hK
      (Dict.set_nodup hnd)
      (by rw [show ({ s with deployments := s.deployments.set c CommDeploys.empty} : St).deployments = s.deployments.set c CommDeploys.empty from rfl, hkeys0]; exact List.mem_append.mpr (Or.inr (List.mem_singleton_self c)))
      (fun d0 hd0 => by rw [← hK]; exact hd0)
      hinv0
      h
  refine ⟨iK, ?_, iinv, ?_, ?_, by simpa using icomm⟩
  · rw [ikeys]
    simpa using hkeys0
  · intro d hd
    apply icov
    rw [hK]
    exact hd
  · intro c0 hc0
    rw [iother c0 hc0]
    simpa using Dict.set_fn_ne s.deployments CommDeploys.empty hc0



/-- The outer ingestion fold over a fresh duplicate-free community list. -/
theorem ingest_outer_inv {readVar : ℤ → ℤ → Except PyErr ℤ} {K : List ℤ} (cs : List ℤ) :
    ∀ (s s' : St),
      s.policeDistricts.keys = K →
      s.deployments.keys.Nodup →
      (∀ c ∈ cs, c ∉ s.deployments.keys) →
      cs.Nodup →
      CounterInv s.policeDistricts s.deployments →
      cs.foldlM (ingestComm readVar) s = .ok s' →
      s'.policeDistricts.keys = K ∧ s'.deployments.keys = s.deployments.keys ++ cs ∧
      CounterInv s'.policeDistricts s'.deployments ∧
      (∀ c ∈ cs, ∀ d ∈ K, d ∈ (s'.deployments.fn c).keys) ∧
      (∀ c0, c0 ∉ cs → s'.deployments.fn c0 = s.deployments.fn c0) ∧
      s'.communities = s.communities := by
  induction cs with
  | nil =>
    intro s s' hK hnd hfresh hcsnd hinv h
    simp only [List.foldlM, pureOk, Except.ok.injEq] at h
    subst h
    exact ⟨hK, by simp, hinv, by simp, fun c0 _ => rfl, rfl⟩
  | cons c cs ih =>
    intro s s' hK hnd hfresh hcsnd hinv h
    obtain ⟨t, hstep, hrest⟩ := foldlM_cons_ok _ _ _ _ _ h
    have hcnew : c ∉ s.deployments.keys := hfresh c (List.mem_cons_self c cs)
    obtain ⟨tK, tkeys, tinv, tcov, tother, tcomm⟩ := ingestComm_inv hK hnd hcnew hinv hstep
    have tnd : t.deployments.keys.Nodup := by
      rw [tkeys, List.nodup_append]
      refine ⟨hnd, List.nodup_singleton c, ?_⟩
      intro a ha hb
      rw [List.mem_singleton] at hb
      subst hb
      exact hcnew ha
    have tfresh : ∀ c0 ∈ cs, c0 ∉ t.deployments.keys := by
      intro c0 hc0 hmem
      rw [tkeys] at hmem
      rcases List.mem_append.mp hmem with hm | hm
      · exact hfresh c0 (List.mem_cons_of_mem _ hc0) hm
      · rw [List.mem_singleton] at hm
        subst hm
        exact (List.nodup_cons.mp hcsnd).1 hc0
    obtain ⟨iK, ikeys, iinv, icov, iother, icomm⟩ :=
      ih t s' tK tnd tfresh (List.nodup_cons.mp hcsnd).2 tinv hrest
    refine ⟨iK, ?_, iinv, ?_, ?_, by rw [icomm, tcomm]⟩
    · rw [ikeys, tkeys, List.append_assoc, List.singleton_append]
    · intro c0 hc0 d hd
      rcases List.mem_cons.mp hc0 with hc0 | hc0
      · subst hc0
        rw [iother c0 (List.nodup_cons.mp hcsnd).1]
        exact tcov d hd
      · exact icov c0 hc0 d hd
    · intro c0 hc0
      rw [iother c0 (fun hm => hc0 (List.mem_cons_of_mem _ hm)),
        tother c0 (fun he => hc0 (by rw [he]; exact List.mem_cons_self c cs))]

/-- Every key of the reset district dict carries a freshly-reset record,
provided the database rows cover all pre-existing keys. -/
theorem resetDistrictsFold_form (dbD : List DistrictRow) :
    ∀ (m : Dict ℤ DistrictInfo),
      (∀ d ∈ m.keys, d ∈ dbD.map DistrictRow.id ∨
        ((m.fn d).available_patrols + (m.fn d).deployed_patrols = (m.fn d).total_patrols ∧
         (m.fn d).deployed_patrols = 0)) →
      ∀ d ∈ (resetDistrictsFold dbD m).keys,
        ((resetDistrictsFold dbD m).fn d).available_patrols
          + ((resetDistrictsFold dbD m).fn d).deployed_patrols
          = ((resetDistrictsFold dbD m).fn d).total_patrols ∧
        ((resetDistrictsFold dbD m).fn d).deployed_patrols = 0 := by
  induction dbD with
  | nil =>
    intro m hm d hd
    exact (hm d hd).resolve_left (by simp)
  | cons r rest ih =>
    intro m hm d hd
    have hrw : resetDistrictsFold (r :: rest) m
        = resetDistrictsFold rest (m.set r.id ⟨r.name, r.patrols, r.patrols, 0⟩) := rfl
    rw [hrw] at hd ⊢
    refine ih (m.set r.id ⟨r.name, r.patrols, r.patrols, 0⟩) ?_ d hd
    intro d0 hd0
    by_cases hdr : d0 = r.id
    · subst hdr
      right
      rw [Dict.set_fn_same]
      exact ⟨by simp, rfl⟩
    · rw [Dict.set_fn_ne _ _ hdr]
      rcases Dict.mem_set_keys.mp hd0 with hm0 | hm0
      · rcases hm d0 hm0 with hid | hform
        · have hid2 : d0 = r.id ∨ ∃ a ∈ rest, a.id = d0 := by simpa using hid
          rcases hid2 with h1 | h1
          · exact absurd h1 hdr
          · left
            simpa using h1
        · right
          exact hform
      · exact absurd hm0 hdr

/-- One step of the optimizer coverage loop only rewrites `totalCoverage`. -/
theorem covLoopOptStep_fields {s : ℚ × ℤ × St} {c : ℤ} {r : ℚ × ℤ × St}
    (h : covLoopOptStep s c = .ok r) :
    r.2.2.deployments = s.2.2.deployments ∧ r.2.2.policeDistricts = s.2.2.policeDistricts ∧
    r.2.2.communities = s.2.2.communities := by
  simp only [covLoopOptStep, bind, Except.bind] at h
  split at h
  · simp at h
  next ci hci =>
    split at h
    · simp at h
    next cc hcc =>
      split at h
      · simp at h
      · simp only [pureOk, Except.ok.injEq] at h
        subst h
        exact ⟨rfl, rfl, rfl⟩

/-- The optimizer coverage loop only rewrites `totalCoverage`. -/
theorem covLoopOpt_fields {s2 s3 : St} (h : covLoopOpt s2 = .ok s3) :
    s3.deployments = s2.deployments ∧ s3.policeDistricts = s2.policeDistricts ∧
    s3.communities = s2.communities := by
  simp only [covLoopOpt, bind, Except.bind] at h
  split at h
  · simp at h
  next r hr =>
    simp only [pureOk, Except.ok.injEq] at h
    subst h
    exact foldlM_ok_invariant
      (fun r : ℚ × ℤ × St => r.2.2.deployments = s2.deployments ∧
        r.2.2.policeDistricts = s2.policeDistricts ∧ r.2.2.communities = s2.communities)
      covLoopOptStep s2.deployments.keys (0, 0, s2) r
      (fun t a t' ha hP hstep => by
        obtain ⟨h1, h2, h3⟩ := covLoopOptStep_fields hstep
        exact ⟨h1.trans hP.1, h2.trans hP.2.1, h3.trans hP.2.2⟩)
      ⟨rfl, rfl, rfl⟩ hr

/-- The counter invariant only depends on the allocation matrix and the
district counters. -/
theorem invSt_congr {a b : St} (hd : b.deployments = a.deployments)
    (hp : b.policeDistricts = a.policeDistricts) (h : InvSt a) : InvSt b := by
  unfold InvSt at h ⊢
  rw [hd, hp]
  exact h

/-- A successful optimization run (re)establishes the district-counter
invariant, for any solver output, whenever the community list is
duplicate-free and the district table covers the in-memory district keys. -/
theorem runOptimization_preserves_inv {cdf : ℚ → ℤ → ℚ} {st : St} {dbD : List DistrictRow}
    {useFairness : Bool} {msol : Option (ℤ → ℤ → ℤ)} {st' : St}
    (hcomm : st.communities.keys.Nodup)
    (hcover : ∀ d ∈ st.policeDistricts.keys, d ∈ dbD.map DistrictRow.id)
    (h : runOptimization cdf st dbD useFairness msol = Res.ok st') : InvSt st' := by
  simp only [runOptimization] at h
  split at h
  · simp at h
  next hl =>
    split at h
    · simp at h
    next u hbuild =>
      split at h
      · simp at h
      next s2 hingest =>
        split at h
        · simp at h
        next s3 hcov =>
          split at h
          · simp at h
          next tdf htdf =>
            split at h
            · simp at h
            next sol =>
              simp only [Res.ok.injEq] at h
              have hreset : CounterInv (resetPlan st dbD).policeDistricts
                  (resetPlan st dbD).deployments := by
                intro d hd
                have hform := resetDistrictsFold_form dbD st.policeDistricts
                  (fun d0 hd0 => Or.inl (hcover d0 hd0)) d hd
                refine ⟨hform.1, ?_⟩
                show ((resetDistrictsFold dbD st.policeDistricts).fn d).deployed_patrols
                  = sumAllocD (Dict.empty CommDeploys.empty) d
                rw [hform.2]
                exact (sumAllocD_zero (Dict.empty CommDeploys.empty)
                  (fun c hc => absurd hc (List.not_mem_nil c)) d).symm
              obtain ⟨iK, ikeys, iinv, icov, iother, icomm⟩ :=
                ingest_outer_inv (K := (resetPlan st dbD).policeDistricts.keys)
                  st.communities.keys (resetPlan st dbD) s2 rfl List.nodup_nil
                  (fun c hc => List.not_mem_nil c) hcomm hreset hingest
              obtain ⟨c1, c2, c3⟩ := covLoopOpt_fields hcov
              have hinv3 : InvSt s3 := by
                refine invSt_congr c1 c2 ⟨?_, iinv⟩
                rw [ikeys]
                simpa using hcomm
              rw [← h]
              exact invSt_congr rfl rfl hinv3



/-- Concrete database rows for a small successful load. -/
def cC2dbC : List CommunityRow := [⟨1, 1, "c1", 0⟩]

def cC2preds : List PredRow := [⟨some 1, some "THEFT", 6⟩]

def cC2dbD : List DistrictRow := [⟨1, "d1", 5⟩]

def exceptIsOkSt : Except PyErr St → Bool
  | .ok _ => true
  | .error _ => false

def exceptStD (d : St) : Except PyErr St → St
  | .ok b => b
  | .error _ => d

theorem exceptSt_eq_ok {e : Except PyErr St} (d : St) (h : exceptIsOkSt e = true) :
    e = .ok (exceptStD d e) := by
  cases e with
  | ok b => rfl
  | error e0 => simp [exceptIsOkSt] at h

theorem cC2load_isOk :
    exceptIsOkSt (loadDeploymentPlan cdfHalf cC2dbC [] cC2preds cC2dbD []) = true := by
  norm_num [loadDeploymentPlan, cC2dbC, cC2preds, cC2dbD, loadCommunities, loadDistances,
    loadCrimecounts0, loadCodeMapQ, loadMapDeploys0, loadDeployments0, loadDistricts0,
    predsLoop, histStep, computeTotalCoverage, computeTotals, calculateFairnessTStat,
    fairnessCounts, fairnessVarSums, fairnessFromT, cdfHalf, crimetype_weights,
    Dict.getE, Dict.set, Dict.empty, CommDeploys.empty, commCoverage, n_crimes_per_patrol,
    bucket1, List.foldlM, Function.update, exceptIsOkSt]

theorem cSt8_undeploy_isOk : (undeployPatrols cdfHalf cSt8 1 1 1).isOk = true := by
  norm_num [undeployPatrols, cSt8, Dict.getE, Dict.set, allocAdd, adjustDistrict, setMaps,
    addDistanceCost, touchAlloc, CommDeploys.addCell, CommDeploys.touch, CommDeploys.getd,
    CommDeploys.empty, commCoverage, computeTotalCoverage, computeTotals,
    calculateFairnessTStat, fairnessCounts, fairnessVarSums, fairnessFromT, cdfHalf,
    ratSqrt, isqrt, isqrtGo, bucket1, n_crimes_per_patrol, List.foldlM, Function.update]



def cC2dbDOpt : List DistrictRow := [⟨1, "d1", 10⟩]

def cC2sol : ℤ → ℤ → ℤ := fun c _ => c

theorem cSt8_build_ok : buildPhase cSt8 = .ok () := by
  norm_num [buildPhase, cSt8, Dict.getE, bucket1, List.foldlM, List.countP, List.countP.go]

theorem cSt8_runOpt_isOk :
    (runOptimization cdfHalf cSt8 cC2dbDOpt false (some cC2sol)).isOk = true := by
  have hl : cSt8.loaded = true := rfl
  simp only [runOptimization, cSt8_build_ok, hl, Bool.not_true]
  norm_num [ingestLoop, ingestComm, ingestStep, covLoopOpt, covLoopOptStep, liftSt,
    resetPlan, resetDistrictsFold, cSt8, cC2dbDOpt, cC2sol, Dict.getE, Dict.set,
    Dict.empty, allocAdd, adjustDistrict, setMaps, addDistanceCost, CommDeploys.addCell,
    CommDeploys.getd, CommDeploys.empty, commCoverage, calculateFairnessTStat,
    fairnessCounts, fairnessVarSums, fairnessFromT, cdfHalf, ratSqrt, isqrt, isqrtGo,
    bucket1, n_crimes_per_patrol, List.foldlM, Function.update]



/-- Claim C2: for every district `d`, after every operation — session load,
assign, unassign, and solver-result ingestion — the derived counters satisfy
`available(d) + deployed(d) = total(d)` and `deployed(d) = Σ_c allocation(c, d)`.
The two edit operations preserve the invariant from any state satisfying it;
load establishes it outright; an optimization run re-establishes it for any
solver output whenever the community list is duplicate-free and the district
table rows cover the in-memory district keys (the code rebuilds
`policeDistricts` from exactly those rows). -/
theorem C2_counter_invariant_all_operations {cdf : ℚ → ℤ → ℚ} :
    (∀ dbC dbDist preds dbD dbDep st,
      loadDeploymentPlan cdf dbC dbDist preds dbD dbDep = .ok st → InvSt st) ∧
    (∀ st district community patrols st', InvSt st →
      deployPatrols cdf st district community patrols = .ok st' → InvSt st') ∧
    (∀ st district community patrols st', InvSt st →
      undeployPatrols cdf st district community patrols = .ok st' → InvSt st') ∧
    (∀ st dbD useFairness msol st',
      st.communities.keys.Nodup →
      (∀ d ∈ st.policeDistricts.keys, d ∈ dbD.map DistrictRow.id) →
      runOptimization cdf st dbD useFairness msol = Res.ok st' → InvSt st') :=
  ⟨fun _ _ _ _ _ _ h => loadDeploymentPlan_inv h,
   fun _ _ _ _ _ hi h => deployPatrols_preserves_inv hi h,
   fun _ _ _ _ _ hi h => undeployPatrols_preserves_inv hi h,
   fun _ _ _ _ _ hc hv h => runOptimization_preserves_inv hc hv h⟩

/-- Witness for `C2_counter_invariant_all_operations` at concrete inputs:
a one-community load, the assign and unassign edits on `cSt8`, and a full
optimization run on `cSt8`, each hypothesis discharged by evaluation. -/
theorem C2_counter_invariant_all_operations_witness :
    InvSt (exceptStD cSt3 (loadDeploymentPlan cdfHalf cC2dbC [] cC2preds cC2dbD [])) ∧
    InvSt (deployPatrols cdfHalf cSt8 1 1 1).state ∧
    InvSt (undeployPatrols cdfHalf cSt8 1 1 1).state ∧
    InvSt (runOptimization cdfHalf cSt8 cC2dbDOpt false (some cC2sol)).state := by
  refine ⟨?_, ?_, ?_, ?_⟩
  · exact C2_counter_invariant_all_operations.1 cC2dbC [] cC2preds cC2dbD [] _
      (exceptSt_eq_ok cSt3 cC2load_isOk)
  · exact C2_counter_invariant_all_operations.2.1 cSt8 1 1 1 _ (by decide)
      (Res.eq_ok_of_isOk cSt8_deploy_isOk)
  · exact C2_counter_invariant_all_operations.2.2.1 cSt8 1 1 1 _ (by decide)
      (Res.eq_ok_of_isOk cSt8_undeploy_isOk)
  · exact C2_counter_invariant_all_operations.2.2.2 cSt8 cC2dbDOpt false (some cC2sol) _
      (by decide) (by decide) (Res.eq_ok_of_isOk cSt8_runOpt_isOk)



theorem CommDeploys.cell_addCell_same (cd : CommDeploys) (d p : ℤ) :
    (cd.addCell d p).cell d = cd.getd d + p := by
  unfold CommDeploys.addCell
  simp [Function.update_same]

/-- The reset of lines 701-709 satisfies the counter invariant when the
district table covers the in-memory district keys. -/
theorem resetPlan_counterInv {st : St} {dbD : List DistrictRow}
    (hcover : ∀ d ∈ st.policeDistricts.keys, d ∈ dbD.map DistrictRow.id) :
    CounterInv (resetPlan st dbD).policeDistricts (resetPlan st dbD).deployments := by
  intro d hd
  have hd2 : d ∈ (resetDistrictsFold dbD st.policeDistricts).keys := hd
  have hform := resetDistrictsFold_form dbD st.policeDistricts
    (fun d0 hd0 => Or.inl (hcover d0 hd0)) d hd2
  refine ⟨hform.1, ?_⟩
  show ((resetDistrictsFold dbD st.policeDistricts).fn d).deployed_patrols
    = sumAllocD (Dict.empty CommDeploys.empty) d
  rw [hform.2]
  exact (sumAllocD_zero (Dict.empty CommDeploys.empty)
    (fun c hc => absurd hc (List.not_mem_nil c)) d).symm

/-- After a successful optimization run, every community row of the new
allocation matrix has one cell key per police district. -/
theorem runOptimization_ok_rowcover {cdf : ℚ → ℤ → ℚ} {st : St} {dbD : List DistrictRow}
    {useFairness : Bool} {msol : Option (ℤ → ℤ → ℤ)} {st' : St}
    (hcomm : st.communities.keys.Nodup)
    (hcover : ∀ d ∈ st.policeDistricts.keys, d ∈ dbD.map DistrictRow.id)
    (h : runOptimization cdf st dbD useFairness msol = Res.ok st') :
    ∀ c ∈ st'.deployments.keys, ∀ d ∈ st'.policeDistricts.keys,
      d ∈ (st'.deployments.fn c).keys := by
  simp only [runOptimization] at h
  split at h
  · simp at h
  next hl =>
    split at h
    · simp at h
    next u hbuild =>
      split at h
      · simp at h
      next s2 hingest =>
        split at h
        · simp at h
        next s3 hcov =>
          split at h
          · simp at h
          next tdf htdf =>
            split at h
            · simp at h
            next sol =>
              simp only [Res.ok.injEq] at h
              obtain ⟨iK, ikeys, iinv, icov, iother, icomm⟩ :=
                ingest_outer_inv (K := (resetPlan st dbD).policeDistricts.keys)
                  st.communities.keys (resetPlan st dbD) s2 rfl List.nodup_nil
                  (fun c hc => List.not_mem_nil c) hcomm (resetPlan_counterInv hcover)
                  hingest
              obtain ⟨c1, c2, c3⟩ := covLoopOpt_fields hcov
              have hd2 : st'.deployments = s2.deployments := by rw [← h]; exact c1
              have hp2 : st'.policeDistricts = s2.policeDistricts := by rw [← h]; exact c2
              have hk2 : s2.deployments.keys = st.communities.keys := by rw [ikeys]; rfl
              intro c hc d hd
              rw [hd2] at hc ⊢
              rw [hp2] at hd
              rw [hk2] at hc
              exact icov c hc d (by rw [← iK]; exact hd)



/-- Claim C10: the save path emits one `(date, period, community, district,
patrols)` record for every district key of every community's allocation row
(the `'total'` entry excepted), zero-valued cells included.  In particular a
cell assigned and then fully unassigned stays a key with value 0 and is
persisted as an explicit zero-patrol record, and after a successful
optimization run every `(community, district)` pair is persisted. -/
theorem C10_save_emits_zero_cells {cdf : ℚ → ℤ → ℚ} :
    (∀ (date period : String) (st st1 st2 : St) (district community patrols : ℤ),
      (st.deployments.fn community).getd district = 0 →
      deployPatrols cdf st district community patrols = .ok st1 →
      undeployPatrols cdf st1 district community patrols = .ok st2 →
      saveDeploymentPlan date period st2 = some (savedRecords date period st2) ∧
      (⟨date, period, community, district, 0⟩ : SavedRecord)
        ∈ savedRecords date period st2) ∧
    (∀ (date period : String) (st : St) (dbD : List DistrictRow) (useFairness : Bool)
        (msol : Option (ℤ → ℤ → ℤ)) (st' : St),
      st.communities.keys.Nodup →
      (∀ d ∈ st.policeDistricts.keys, d ∈ dbD.map DistrictRow.id) →
      runOptimization cdf st dbD useFairness msol = Res.ok st' →
      ∀ c ∈ st'.deployments.keys, ∀ d ∈ st'.policeDistricts.keys,
        (⟨date, period, c, d, (st'.deployments.fn c).cell d⟩ : SavedRecord)
          ∈ savedRecords date period st') := by
  constructor
  · intro date period st st1 st2 district community patrols h0 hdep hundep
    obtain ⟨hl, hdmem, hcap, hcmem, hx1, hx2, hx3, tcov, tdf, hA, hB, hst1⟩ :=
      deployPatrols_ok_inv hdep
    obtain ⟨hl1, hcmem1, hguard, hdmem1, hy1, hy2, hy3, tcov2, tdf2, hC, hD, hst2⟩ :=
      undeployPatrols_ok_inv hundep
    have h1d : st1.deployments
        = st.deployments.set community ((st.deployments.fn community).addCell district
            patrols) := by
      rw [hst1]
      rfl
    have h2d : st2.deployments
        = (st1.deployments.set community
            ((st1.deployments.fn community).touch district)).set community
          (((st1.deployments.set community
            ((st1.deployments.fn community).touch district)).fn community).addCell district
              (-patrols)) := by
      rw [hst2]
      rfl
    have hrow2 : st2.deployments.fn community
        = (((st.deployments.fn community).addCell district patrols).touch
            district).addCell district (-patrols) := by
      rw [h2d, Dict.set_fn_same, Dict.set_fn_same, h1d, Dict.set_fn_same]
    have hcellv : (st2.deployments.fn community).cell district = 0 := by
      rw [hrow2, CommDeploys.cell_addCell_same, CommDeploys.getd_touch,
        CommDeploys.getd_addCell_same, h0]
      ring
    have hdkeys : district ∈ (st2.deployments.fn community).keys := by
      rw [hrow2]
      exact CommDeploys.mem_addCell_keys.mpr (Or.inr rfl)
    have hckeys : community ∈ st2.deployments.keys := by
      rw [h2d]
      exact Dict.mem_set_keys.mpr (Or.inr rfl)
    have hl2 : st2.loaded = true := by
      rw [hst2]
      exact hl1
    constructor
    · simp [saveDeploymentPlan, hl2]
    · refine List.mem_flatMap.mpr ⟨community, hckeys, ?_⟩
      refine List.mem_map.mpr ⟨district, hdkeys, ?_⟩
      rw [hcellv]
  · intro date period st dbD useFairness msol st' hcomm hcover h c hc d hd
    have hdk := runOptimization_ok_rowcover hcomm hcover h c hc d hd
    exact List.mem_flatMap.mpr ⟨c, hc, List.mem_map.mpr ⟨d, hdk, rfl⟩⟩



/-- `cSt8` with community 1's allocation cell for district 1 present but
zero-valued. -/
def cSt10 : St :=
  { cSt8 with deployments := ⟨[1, 2, 3, 4], fun c =>
      if c = 1 then ⟨[1], fun _ => 0, 0⟩ else if c = 2 then ⟨[1], fun _ => 1, 1⟩
      else if c = 3 then ⟨[1], fun _ => 1, 1⟩ else ⟨[1], fun _ => 3, 3⟩⟩ }

theorem cSt10_deploy_isOk : (deployPatrols cdfHalf cSt10 1 1 1).isOk = true := by
  norm_num [deployPatrols, cSt10, cSt8, Dict.getE, Dict.set, allocAdd, adjustDistrict,
    setMaps, addDistanceCost, CommDeploys.addCell, CommDeploys.getd, CommDeploys.empty,
    commCoverage, computeTotalCoverage, computeTotals, calculateFairnessTStat,
    fairnessCounts, fairnessVarSums, fairnessFromT, cdfHalf, ratSqrt, isqrt, isqrtGo,
    bucket1, n_crimes_per_patrol, List.foldlM, Function.update]

theorem cSt10_undeploy_isOk :
    (undeployPatrols cdfHalf (deployPatrols cdfHalf cSt10 1 1 1).state 1 1 1).isOk
      = true := by
  norm_num [undeployPatrols, deployPatrols, Res.state, cSt10, cSt8, Dict.getE, Dict.set,
    allocAdd, adjustDistrict, setMaps, addDistanceCost, touchAlloc, CommDeploys.addCell,
    CommDeploys.touch, CommDeploys.getd, CommDeploys.empty, commCoverage,
    computeTotalCoverage, computeTotals, calculateFairnessTStat, fairnessCounts,
    fairnessVarSums, fairnessFromT, cdfHalf, ratSqrt, isqrt, isqrtGo, bucket1,
    n_crimes_per_patrol, List.foldlM, Function.update]

theorem cSt8_runOpt_keys :
    (runOptimization cdfHalf cSt8 cC2dbDOpt false (some cC2sol)).state.deployments.keys
      = [1, 2, 3, 4] ∧
    (runOptimization cdfHalf cSt8 cC2dbDOpt false
      (some cC2sol)).state.policeDistricts.keys = [1] := by
  have hl : cSt8.loaded = true := rfl
  simp only [runOptimization, cSt8_build_ok, hl, Bool.not_true]
  norm_num [ingestLoop, ingestComm, ingestStep, covLoopOpt, covLoopOptStep, liftSt,
    resetPlan, resetDistrictsFold, cSt8, cC2dbDOpt, cC2sol, Dict.getE, Dict.set,
    Dict.empty, allocAdd, adjustDistrict, setMaps, addDistanceCost, CommDeploys.addCell,
    CommDeploys.getd, CommDeploys.empty, commCoverage, calculateFairnessTStat,
    fairnessCounts, fairnessVarSums, fairnessFromT, cdfHalf, ratSqrt, isqrt, isqrtGo,
    bucket1, n_crimes_per_patrol, List.foldlM, Function.update, Res.state]

/-- Witness for `C10_save_emits_zero_cells`: on `cSt10`, assigning one
patrol to cell `(1, 1)` (initially an explicit 0) and unassigning it again
leaves a zero-valued key that the save path persists; and after a full
optimization run on `cSt8` the pair `(1, 1)` is persisted. -/
theorem C10_save_emits_zero_cells_witness :
    (saveDeploymentPlan "2018-06-01" "evening"
        (undeployPatrols cdfHalf (deployPatrols cdfHalf cSt10 1 1 1).state 1 1 1).state
      = some (savedRecords "2018-06-01" "evening"
        (undeployPatrols cdfHalf (deployPatrols cdfHalf cSt10 1 1 1).state 1 1 1).state) ∧
     (⟨"2018-06-01", "evening", 1, 1, 0⟩ : SavedRecord)
       ∈ savedRecords "2018-06-01" "evening"
         (undeployPatrols cdfHalf (deployPatrols cdfHalf cSt10 1 1 1).state 1 1 1).state) ∧
    (⟨"2018-06-01", "evening", 1, 1,
        ((runOptimization cdfHalf cSt8 cC2dbDOpt false
          (some cC2sol)).state.deployments.fn 1).cell 1⟩ : SavedRecord)
      ∈ savedRecords "2018-06-01" "evening"
        (runOptimization cdfHalf cSt8 cC2dbDOpt false (some cC2sol)).state := by
  constructor
  · exact C10_save_emits_zero_cells.1 "2018-06-01" "evening" cSt10 _ _ 1 1 1 (by decide)
      (Res.eq_ok_of_isOk cSt10_deploy_isOk) (Res.eq_ok_of_isOk cSt10_undeploy_isOk)
  · exact C10_save_emits_zero_cells.2 "2018-06-01" "evening" cSt8 cC2dbDOpt false
      (some cC2sol) _ (by decide) (by decide) (Res.eq_ok_of_isOk cSt8_runOpt_isOk)
      1 (by rw [cSt8_runOpt_keys.1]; decide) 1 (by rw [cSt8_runOpt_keys.2]; decide)


end CrimeOpt
